import Mathlib

/-!
Shallow embedding of the core configuration engine of
`src/CiscoConfigTool_v5.py` (port configuration store, selection model,
interface-range compression, VLAN-range validation, undo/redo history,
command grouping, JSON persistence), together with theorems settling the
frozen claims about it.

Python strings are modelled as Lean `String`s; the handful of Python
string primitives the code uses (`str.strip`, `str.split`, `str.isdigit`,
`str.upper`, `str.lower`, `int(...)`) are embedded below as structurally
recursive functions on the character list so that every definition is
executable by the kernel.
-/

namespace Cisco

/-! ## Python string primitives -/

/-- `str.isdigit` on the character list: nonempty and all decimal digits. -/
def pyIsDigitL (l : List Char) : Bool :=
  !l.isEmpty && l.all Char.isDigit

/-- `str.isdigit`. -/
def pyIsDigit (s : String) : Bool := pyIsDigitL s.data

/-- Numeric value of a list of decimal digit characters (most significant
first), as computed by Python `int` on an all-digit string. -/
def digitsToNat (l : List Char) : Nat :=
  l.foldl (fun a c => 10 * a + (c.toNat - 48)) 0

/-- Drop leading and trailing whitespace from a character list
(`str.strip`). -/
def stripL (l : List Char) : List Char :=
  ((l.dropWhile Char.isWhitespace).reverse.dropWhile Char.isWhitespace).reverse

/-- `str.strip`. -/
def pyStrip (s : String) : String := ⟨stripL s.data⟩

/-- Python `int(s)`: optional surrounding whitespace, optional sign, then a
nonempty run of decimal digits; `none` models the `ValueError`. -/
def pyInt? (s : String) : Option Int :=
  match stripL s.data with
  | [] => none
  | c :: cs =>
    if c = '-' then if pyIsDigitL cs then some (-(digitsToNat cs : Int)) else none
    else if c = '+' then if pyIsDigitL cs then some (digitsToNat cs : Int) else none
    else if pyIsDigitL (c :: cs) then some (digitsToNat (c :: cs) : Int) else none

/-- ASCII lower-casing of one character (`str.lower`). -/
def charLower (c : Char) : Char :=
  match c with
  | 'A' => 'a' | 'B' => 'b' | 'C' => 'c' | 'D' => 'd' | 'E' => 'e' | 'F' => 'f'
  | 'G' => 'g' | 'H' => 'h' | 'I' => 'i' | 'J' => 'j' | 'K' => 'k' | 'L' => 'l'
  | 'M' => 'm' | 'N' => 'n' | 'O' => 'o' | 'P' => 'p' | 'Q' => 'q' | 'R' => 'r'
  | 'S' => 's' | 'T' => 't' | 'U' => 'u' | 'V' => 'v' | 'W' => 'w' | 'X' => 'x'
  | 'Y' => 'y' | 'Z' => 'z'
  | c => c

/-- ASCII upper-casing of one character (`str.upper`). -/
def charUpper (c : Char) : Char :=
  match c with
  | 'a' => 'A' | 'b' => 'B' | 'c' => 'C' | 'd' => 'D' | 'e' => 'E' | 'f' => 'F'
  | 'g' => 'G' | 'h' => 'H' | 'i' => 'I' | 'j' => 'J' | 'k' => 'K' | 'l' => 'L'
  | 'm' => 'M' | 'n' => 'N' | 'o' => 'O' | 'p' => 'P' | 'q' => 'Q' | 'r' => 'R'
  | 's' => 'S' | 't' => 'T' | 'u' => 'U' | 'v' => 'V' | 'w' => 'W' | 'x' => 'X'
  | 'y' => 'Y' | 'z' => 'Z'
  | c => c

/-- `str.upper` (ASCII). -/
def pyUpper (s : String) : String := ⟨s.data.map charUpper⟩

/-- `str.lower` (ASCII). -/
def pyLower (s : String) : String := ⟨s.data.map charLower⟩

/-- `str.split(sep)` for a one-character separator: splits at every
occurrence, keeping empty pieces (`"10-".split("-") = ["10", ""]`). -/
def splitCharL (c : Char) : List Char → List (List Char)
  | [] => [[]]
  | x :: xs =>
    if x = c then [] :: splitCharL c xs
    else
      match splitCharL c xs with
      | [] => [[x]]
      | g :: gs => (x :: g) :: gs

/-- `s.split(c)` as strings. -/
def pySplit (s : String) (c : Char) : List String :=
  (splitCharL c s.data).map (fun l => ⟨l⟩)

/-! ## `_validate_vlan_range` (source lines 2550–2613)

The single validation routine used both for live typing and at commit
time.  The `except ValueError` branch (reachable only when a part with a
hyphen splits into a number of pieces other than two, making the
`start, end = ...` tuple unpacking fail) inspects the call stack for
`update_template`; that stack inspection is modelled by the boolean
parameter `fromUpdateTemplate`. -/

/-- The `for part in parts:` loop of `_validate_vlan_range`, including the
surrounding `try`/`except ValueError` (a `ValueError` aborts the whole
loop). -/
def validateVlanParts (fromUpdateTemplate : Bool) : List String → Bool
  | [] => true
  | part :: rest =>
    let p := pyStrip part
    if p = "" then validateVlanParts fromUpdateTemplate rest
    else if p.data.contains '-' then
      match (pySplit p '-').map pyStrip with
      | [st, en] =>
        if st ≠ "" && !pyIsDigit st then false
        else if en ≠ "" && !pyIsDigit en then false
        else if st ≠ "" && en ≠ "" then
          let startVlan := digitsToNat st.data
          let endVlan := digitsToNat en.data
          if !(1 ≤ startVlan && startVlan ≤ 4094 && 1 ≤ endVlan &&
               endVlan ≤ 4094 && startVlan ≤ endVlan) then false
          else validateVlanParts fromUpdateTemplate rest
        else validateVlanParts fromUpdateTemplate rest
      | _ => !fromUpdateTemplate
    else
      if p ≠ "" && !pyIsDigit p then false
      else if p ≠ "" && !(1 ≤ digitsToNat p.data && digitsToNat p.data ≤ 4094) then false
      else validateVlanParts fromUpdateTemplate rest

/-- `_validate_vlan_range(vlan_range)`. -/
def validate_vlan_range (fromUpdateTemplate : Bool) (vlanRange : String) : Bool :=
  if vlanRange = "" then true
  else if pyUpper vlanRange = "ALL" then true
  else validateVlanParts fromUpdateTemplate (pySplit vlanRange ',')

example : validate_vlan_range false "ALL" = true := by decide
example : validate_vlan_range false "10" = true := by decide
example : validate_vlan_range false "1,10-20,30" = true := by decide
example : validate_vlan_range false "10-5" = false := by decide
example : validate_vlan_range false "4095" = false := by decide
example : validate_vlan_range false "abc" = false := by decide
example : validate_vlan_range false "10-" = true := by decide
example : validate_vlan_range false "" = true := by decide
example : validate_vlan_range false "A" = false := by decide
example : validate_vlan_range false "10-2" = false := by decide

/-! ## Data model

A per-port configuration record (`self.port_configs[port]`, a Python dict).
`mode` is the string the code stores (the panel writes
`port_mode_var.get().lower()`, templates write `template["mode"]`
verbatim); an `Option` field being `none` models the key being absent
from the dict. -/

structure PortConfig where
  mode : String
  description : String
  portfast : Bool
  qos_trust : Bool
  data_vlan : Option String := none
  voice_vlan : Option String := none
  native_vlan : Option String := none
  allowed_vlans : Option String := none
deriving DecidableEq, Repr

/-- `self.port_configs`: insertion-ordered dict from port number to record. -/
def PortStore := List (Nat × PortConfig)
deriving DecidableEq, Repr

instance : Membership (Nat × PortConfig) PortStore := inferInstanceAs (Membership _ (List _))

/-- Dict read `store[p]` / `p in store`. -/
def lookupPort : PortStore → Nat → Option PortConfig
  | [], _ => none
  | (k, c) :: rest, p => if k = p then some c else lookupPort rest p

/-- Dict write `store[p] = c`: replaces in place, appends when absent. -/
def setPort : PortStore → Nat → PortConfig → PortStore
  | [], p, c => [(p, c)]
  | (k, c0) :: rest, p, c =>
    if k = p then (k, c) :: rest else (k, c0) :: setPort rest p c

/-- The mutable application state the claims quantify over:
`self.port_configs`, `self.config_history`, `self.current_step` (an `Int`,
initialised to `-1`) and the VLAN registry `self.configured_vlans`. -/
structure AppState where
  port_configs : PortStore
  config_history : List PortStore
  current_step : Int
  configured_vlans : Finset Int
deriving DecidableEq

/-- `__init__`: empty store, empty history, cursor `-1`, empty registry. -/
def initialState : AppState :=
  { port_configs := [], config_history := [], current_step := -1, configured_vlans := ∅ }

/-- Python list indexing `l[i]`: a negative index counts from the end;
`none` models the `IndexError`. -/
def pyIndex {α : Type} (l : List α) (i : Int) : Option α :=
  if 0 ≤ i then l.get? i.toNat
  else if (-i).toNat ≤ l.length then l.get? (l.length - (-i).toNat)
  else none

/-- The snapshot push every mutating operation performs (e.g. source lines
1027–1031): truncate the history to `current_step + 1` entries, append a
deep copy of the current store, increment the cursor. -/
def pushHistory (st : AppState) : AppState :=
  { st with
    config_history := st.config_history.take (st.current_step + 1).toNat ++ [st.port_configs],
    current_step := st.current_step + 1 }

/-- `undo_config` (source lines 632–640): when `current_step >= 0` it first
decrements the cursor and then restores `config_history[current_step]`
(Python indexing, so `-1` wraps around to the last snapshot); otherwise it
is a no-op ("Nothing to undo").  `none` models an uncaught `IndexError`. -/
def undo_config (st : AppState) : Option AppState :=
  if 0 ≤ st.current_step then
    match pyIndex st.config_history (st.current_step - 1) with
    | some snap => some { st with port_configs := snap, current_step := st.current_step - 1 }
    | none => none
  else some st

/-- `redo_config` (source lines 642–650). -/
def redo_config (st : AppState) : Option AppState :=
  if st.current_step < (st.config_history.length : Int) - 1 then
    match pyIndex st.config_history (st.current_step + 1) with
    | some snap => some { st with port_configs := snap, current_step := st.current_step + 1 }
    | none => none
  else some st

/-! ## `_update_vlan_from_port_config` (source lines 1011–1167)

The panel "apply" operation.  The widget reads are modelled by a
`PanelInput` record holding the raw entry strings; the code's `.strip()` /
`.lower()` calls are applied inside the operation, as in the source.  The
iteration order of the copied `selected_ports` set is made explicit as a
`List Nat`. -/

structure PanelInput where
  mode : String
  description : String
  portfast : Bool
  qos_trust : Bool
  data_vlan : String
  voice_vlan : String
  native_vlan : String
  allowed_vlans : String
deriving DecidableEq, Repr

inductive Outcome
  | noSelection
  | crash
  | invalid
  | applied
deriving DecidableEq, Repr

/-- `str(v) for v in range(a, b + 1)` (source line 1058).  The two bounds
come from `int` applied to the pieces of a `"-"` split, so they are never
negative. -/
def intRangeStrs (a b : Int) : List String :=
  (List.range' a.toNat (b.toNat + 1 - a.toNat)).map Nat.repr

/-- The trunk part of the `new_vlans` computation (source lines
1054–1060).  `none` models the uncaught `ValueError` raised when a
hyphenated token does not split into exactly two `int`-parseable pieces. -/
def trunkNewVlans : List String → Option (List String)
  | [] => some []
  | vlan :: rest =>
    if vlan.data.contains '-' then
      match (pySplit vlan '-').map pyStrip with
      | [st, en] =>
        match pyInt? st, pyInt? en with
        | some a, some b => (trunkNewVlans rest).map (intRangeStrs a b ++ ·)
        | _, _ => none
      | _ => none
    else (trunkNewVlans rest).map (pyStrip vlan :: ·)

/-- The `new_vlans` set (source lines 1044–1060), as the list of strings
added to it; `none` models the uncaught `ValueError`. -/
def newVlans (mode data voice native allowed : String) : Option (List String) :=
  let base := if native ≠ "" then [native] else []
  if mode = "access" then
    some (base ++ (if data ≠ "" then [data] else []) ++ (if voice ≠ "" then [voice] else []))
  else if mode = "trunk" && pyLower allowed ≠ "all" then
    (trunkNewVlans (pySplit allowed ',')).map (base ++ ·)
  else some base

/-- Access-mode per-port field updates (source lines 1107–1135): delete the
trunk-only keys, then validate/set `data_vlan` and `voice_vlan`.
`.error` carries the record as already mutated when the validation
warning fires mid-port (`return` at lines 1122/1133). -/
def applyAccessFields (data voice : String) (cfg : PortConfig) : Except PortConfig PortConfig :=
  let cfg2 := { cfg with native_vlan := none, allowed_vlans := none }
  let afterData : Except PortConfig PortConfig :=
    if data ≠ "" then
      match pyInt? data with
      | some dv =>
        if 1 ≤ dv ∧ dv ≤ 4094 then .ok { cfg2 with data_vlan := some data }
        else .error cfg2
      | none => .error cfg2
    else .ok cfg2
  match afterData with
  | .error c => .error c
  | .ok c3 =>
    if voice ≠ "" then
      match pyInt? voice with
      | some vv =>
        if 1 ≤ vv ∧ vv ≤ 4094 then .ok { c3 with voice_vlan := some voice }
        else .error c3
      | none => .error c3
    else .ok { c3 with voice_vlan := none }

/-- Trunk-mode per-port field updates (source lines 1137–1148): delete the
access-only keys, set/delete `native_vlan`, set `allowed_vlans`. -/
def applyTrunkFields (native allowed : String) (cfg : PortConfig) : PortConfig :=
  let cfg2 := { cfg with data_vlan := none, voice_vlan := none }
  let cfg3 :=
    if native ≠ "" then { cfg2 with native_vlan := some native }
    else { cfg2 with native_vlan := none }
  { cfg3 with allowed_vlans := some allowed }

/-- The `for port_num in ports_to_configure:` loop (source lines
1093–1148).  Returns the (possibly partially updated) store and `false`
when an access-mode VLAN validation failure aborted the whole method
mid-loop. -/
def applyPortsLoop (mode desc : String) (pf qos : Bool) (data voice native allowed : String) :
    List Nat → PortStore → PortStore × Bool
  | [], store => (store, true)
  | p :: rest, store =>
    let cfg0 :=
      match lookupPort store p with
      | none =>
        { mode := mode, description := desc, portfast := pf, qos_trust := qos : PortConfig }
      | some c => c
    let cfg1 := { cfg0 with mode := mode, description := desc, portfast := pf, qos_trust := qos }
    if mode = "access" then
      match applyAccessFields data voice cfg1 with
      | .error c => (setPort store p c, false)
      | .ok c => applyPortsLoop mode desc pf qos data voice native allowed rest (setPort store p c)
    else if mode = "trunk" then
      applyPortsLoop mode desc pf qos data voice native allowed rest
        (setPort store p (applyTrunkFields native allowed cfg1))
    else
      applyPortsLoop mode desc pf qos data voice native allowed rest (setPort store p cfg1)

/-- `_update_vlan_from_port_config(self)`.  `ports` is the copied selected
set in iteration order; the result pairs the new state with what the call
did. -/
def update_vlan_from_port_config (st : AppState) (ports : List Nat) (inp : PanelInput) :
    AppState × Outcome :=
  if ports = [] then (st, .noSelection)
  else
    let st1 := pushHistory st
    let mode := pyLower inp.mode
    let desc := pyStrip inp.description
    let native := pyStrip inp.native_vlan
    let allowed0 := pyStrip inp.allowed_vlans
    let allowed := if allowed0 = "" ∧ mode = "trunk" then "ALL" else allowed0
    let data := pyStrip inp.data_vlan
    let voice := pyStrip inp.voice_vlan
    match newVlans mode data voice native allowed with
    | none => (st1, .crash)
    | some nv =>
      let st2 :=
        { st1 with configured_vlans := st1.configured_vlans ∪ (nv.filterMap pyInt?).toFinset }
      let nativeOk : Bool :=
        match pyInt? native with
        | some v => decide (1 ≤ v ∧ v ≤ 4094)
        | none => false
      if mode = "trunk" && native ≠ "" && !nativeOk then (st2, .invalid)
      else if mode = "trunk" && pyLower allowed ≠ "all" && !validate_vlan_range false allowed then
        (st2, .invalid)
      else
        match applyPortsLoop mode desc inp.portfast inp.qos_trust data voice native allowed
            ports st2.port_configs with
        | (store', true) => ({ st2 with port_configs := store' }, .applied)
        | (store', false) => ({ st2 with port_configs := store' }, .invalid)

/-! Concrete runs used by several claims. -/

/-- Panel input for a plain access configuration with the given data VLAN
entry. -/
def panelAccess (dv : String) : PanelInput :=
  { mode := "Access", description := "", portfast := true, qos_trust := false,
    data_vlan := dv, voice_vlan := "", native_vlan := "", allowed_vlans := "" }

/-- Panel input for a trunk configuration with the given native VLAN and
allowed-VLANs entries. -/
def panelTrunk (nv av : String) : PanelInput :=
  { mode := "Trunk", description := "", portfast := true, qos_trust := false,
    data_vlan := "", voice_vlan := "", native_vlan := nv, allowed_vlans := av }

/-- State after applying configuration A (access, data VLAN 10) to port 1
of the initial state. -/
def stateA : AppState := (update_vlan_from_port_config initialState [1] (panelAccess "10")).1

/-- State after then applying configuration B (access, data VLAN 20) to
port 1. -/
def stateB : AppState := (update_vlan_from_port_config stateA [1] (panelAccess "20")).1

/-- The record configuration A writes. -/
def cfgA : PortConfig :=
  { mode := "access", description := "", portfast := true, qos_trust := false,
    data_vlan := some "10" }

/-- The record configuration B writes. -/
def cfgB : PortConfig :=
  { mode := "access", description := "", portfast := true, qos_trust := false,
    data_vlan := some "20" }

/-- In trunk mode the per-port loop contains no validation and therefore
never aborts. -/
theorem applyPortsLoop_trunk_snd (desc : String) (pf qos : Bool)
    (data voice native allowed : String) (ports : List Nat) (store : PortStore) :
    (applyPortsLoop "trunk" desc pf qos data voice native allowed ports store).2 = true := by
  induction ports generalizing store with
  | nil => rfl
  | cons p rest ih => simp [applyPortsLoop, ih]

/-- C1.  Claimed behaviour: apply A, apply B, then `undo()` restores the
state right after A; a second `undo()` restores the initial empty store;
`undo()` at cursor `-1` is a no-op.  What the code does on that very run:
the first `undo()` restores the pre-A (empty) snapshot and the second
`undo()`, indexing `config_history[-1]`, wraps around to the *last*
snapshot and lands on state A; only the no-op part holds. -/
theorem undo_restores_wrong_snapshots :
    stateA.port_configs = [(1, cfgA)] ∧
    stateB.port_configs = [(1, cfgB)] ∧
    (undo_config stateB).map AppState.port_configs = some [] ∧
    ((undo_config stateB).bind undo_config).map AppState.port_configs = some [(1, cfgA)] ∧
    ((undo_config stateB).bind undo_config).bind undo_config =
      (undo_config stateB).bind undo_config ∧
    undo_config initialState = some initialState := by decide

/-- C2, counterexample.  An apply whose access-mode data-VLAN validation
fails (entry `"5000"`) is reported invalid, yet it has already created a
record for the selected port: the store is not left as it was. -/
theorem apply_invalid_data_vlan_mutates_store :
    (update_vlan_from_port_config initialState [1] (panelAccess "5000")).2 = Outcome.invalid ∧
    (update_vlan_from_port_config initialState [1] (panelAccess "5000")).1.port_configs =
      [(1, { mode := "access", description := "", portfast := true, qos_trust := false })] ∧
    initialState.port_configs = [] := by decide

/-- C2, amended.  Only the trunk-mode validations (native VLAN and
allowed-VLANs) run before the write loop: when they reject (or the
allowed-VLANs parse crashes), the store is left exactly as before.
Access-mode data/voice VLAN validation runs inside the loop and can leave
partial writes (see `apply_invalid_data_vlan_mutates_store`). -/
theorem trunk_invalid_apply_preserves_store (st : AppState) (ports : List Nat)
    (inp : PanelInput) (s' : AppState) (oc : Outcome)
    (h : update_vlan_from_port_config st ports inp = (s', oc))
    (hm : pyLower inp.mode = "trunk")
    (hfail : oc = Outcome.invalid ∨ oc = Outcome.crash) :
    s'.port_configs = st.port_configs := by
  by_cases hp : ports = []
  · rw [update_vlan_from_port_config, if_pos hp] at h
    injection h with h1 h2
    subst h1
    rfl
  · simp only [update_vlan_from_port_config, if_neg hp, hm] at h
    repeat' split at h
    all_goals
      first
      | (injection h with h1 h2; subst h1; rfl)
      | (injection h with h1 h2; subst h2;
         rcases hfail with hf | hf <;> cases hf; done)
      | (rename_i s2 heq
         exfalso
         have hb := congrArg Prod.snd heq
         rw [applyPortsLoop_trunk_snd] at hb
         simp at hb)

/-- C2, amended, witness: a trunk apply with native VLAN entry `"5000"` is
rejected and the store of the initial state is untouched. -/
theorem trunk_invalid_apply_preserves_store_witness :
    (update_vlan_from_port_config initialState [1] (panelTrunk "5000" "")).1.port_configs =
      initialState.port_configs :=
  trunk_invalid_apply_preserves_store initialState [1] (panelTrunk "5000" "")
    (update_vlan_from_port_config initialState [1] (panelTrunk "5000" "")).1
    (update_vlan_from_port_config initialState [1] (panelTrunk "5000" "")).2
    rfl (by decide) (Or.inl (by decide))

/-- C10.  With a non-empty selection the snapshot push (truncate redo tail,
append deep copy of the current store, increment cursor) happens before
any validation, so every such apply — crashing, rejected or successful —
adds exactly one history entry and bumps the cursor. -/
theorem update_vlan_pushes_history (st : AppState) (ports : List Nat) (inp : PanelInput)
    (s' : AppState) (oc : Outcome)
    (h : update_vlan_from_port_config st ports inp = (s', oc)) (hne : ports ≠ []) :
    s'.config_history =
      st.config_history.take (st.current_step + 1).toNat ++ [st.port_configs] ∧
    s'.current_step = st.current_step + 1 := by
  simp only [update_vlan_from_port_config, if_neg hne] at h
  repeat' split at h
  all_goals (injection h with h1 h2; subst h1; exact ⟨rfl, rfl⟩)

/-- C10, witness: the rejected apply of
`apply_invalid_data_vlan_mutates_store` still pushes one (empty) snapshot
and moves the cursor from `-1` to `0`. -/
theorem update_vlan_pushes_history_witness :
    (update_vlan_from_port_config initialState [1] (panelAccess "5000")).1.config_history =
      initialState.config_history.take (initialState.current_step + 1).toNat ++
        [initialState.port_configs] ∧
    (update_vlan_from_port_config initialState [1] (panelAccess "5000")).1.current_step =
      initialState.current_step + 1 :=
  update_vlan_pushes_history initialState [1] (panelAccess "5000")
    (update_vlan_from_port_config initialState [1] (panelAccess "5000")).1
    (update_vlan_from_port_config initialState [1] (panelAccess "5000")).2
    rfl (by decide)

/-! ## C6: the VLAN-range validation table -/

/-- C6, counterexample.  The claim says the commit-time validation rejects
the complete-input form `"10-"` and that the live-typing check accepts
every prefix of a valid string.  `_validate_vlan_range` — the one routine
used in both roles, in particular at commit time from
`_update_vlan_from_port_config` line 1087 — accepts `"10-"`, and rejects
`"A"`, a prefix of the valid `"ALL"`. -/
theorem vlan_range_accepts_partial_and_rejects_prefixes :
    validate_vlan_range false "10-" = true ∧ validate_vlan_range false "A" = false := by
  decide

/-- C6, amended.  What the single validation routine actually decides on
the claim's inputs: `"ALL"`, `"10"`, `"1,10-20,30"`, the empty string and
the partial form `"10-"` are accepted; `"10-5"`, `"4095"` and `"abc"` are
rejected; and prefixes of valid strings such as `"A"` and `"10-2"` are
rejected, so the live check does not accept every prefix. -/
theorem vlan_range_validation_table :
    validate_vlan_range false "ALL" = true ∧
    validate_vlan_range false "10" = true ∧
    validate_vlan_range false "1,10-20,30" = true ∧
    validate_vlan_range false "" = true ∧
    validate_vlan_range false "10-" = true ∧
    validate_vlan_range false "10-5" = false ∧
    validate_vlan_range false "4095" = false ∧
    validate_vlan_range false "abc" = false ∧
    validate_vlan_range false "A" = false ∧
    validate_vlan_range false "10-2" = false := by
  decide

/-! ## `on_port_click` selection model (source lines 652–741) -/

/-- `self.selected_ports` and `self.last_clicked_port`. -/
structure SelState where
  selected_ports : Finset Nat
  last_clicked_port : Option Nat
deriving DecidableEq

/-- The regular-click branch (source lines 717–726). -/
def regularClick (st : SelState) (port : Nat) : SelState :=
  if st.selected_ports = {port} then st
  else { selected_ports := {port}, last_clicked_port := some port }

/-- The selection core of `on_port_click`: ctrl toggles, shift with a
non-null anchor unions the inclusive range `[min, max]` without touching
the anchor, otherwise a regular click selects exactly the clicked port. -/
def on_port_click (st : SelState) (port : Nat) (ctrl shiftKey : Bool) : SelState :=
  if ctrl then
    { selected_ports :=
        if port ∈ st.selected_ports then st.selected_ports.erase port
        else insert port st.selected_ports,
      last_clicked_port := some port }
  else if shiftKey then
    match st.last_clicked_port with
    | some anchor =>
      let start_port := min anchor port
      let end_port := max anchor port
      { st with selected_ports := st.selected_ports ∪ Finset.Icc start_port end_port }
    | none => regularClick st port
  else regularClick st port

/-- C5.  A shift-click with a non-null anchor unions the previous
selection with the inclusive range `[min(anchor, port), max(anchor, port)]`
and leaves the anchor unchanged, so the old selection is always kept. -/
theorem shift_click_unions_range (st : SelState) (port anchor : Nat)
    (h : st.last_clicked_port = some anchor) :
    (on_port_click st port false true).selected_ports =
      st.selected_ports ∪ Finset.Icc (min anchor port) (max anchor port) ∧
    (on_port_click st port false true).last_clicked_port = some anchor ∧
    st.selected_ports ⊆ (on_port_click st port false true).selected_ports := by
  have hval : on_port_click st port false true =
      { st with selected_ports :=
          st.selected_ports ∪ Finset.Icc (min anchor port) (max anchor port) } := by
    simp [on_port_click, h]
  refine ⟨by rw [hval], by rw [hval]; exact h, by rw [hval]; exact Finset.subset_union_left⟩

/-- C5, witness: with selection `{5,…,9}` anchored at 5, shift-clicking 3
extends the selection to `{3,…,9}` and keeps the anchor. -/
theorem shift_click_unions_range_witness :
    (on_port_click ⟨{5, 6, 7, 8, 9}, some 5⟩ 3 false true).selected_ports =
      ({5, 6, 7, 8, 9} : Finset Nat) ∪ Finset.Icc (min 5 3) (max 5 3) ∧
    (on_port_click ⟨{5, 6, 7, 8, 9}, some 5⟩ 3 false true).last_clicked_port = some 5 ∧
    ({5, 6, 7, 8, 9} : Finset Nat) ⊆
      (on_port_click ⟨{5, 6, 7, 8, 9}, some 5⟩ 3 false true).selected_ports :=
  shift_click_unions_range ⟨{5, 6, 7, 8, 9}, some 5⟩ 3 5 rfl

/-! ## `_generate_interface_ranges` (source lines 757–786) -/

/-- The run-collapsing loop (source lines 770–779), carrying
`start_range`/`end_range` and returning the inclusive runs in emission
order. -/
def collapseRuns (start_range end_range : Nat) : List Nat → List (Nat × Nat)
  | [] => [(start_range, end_range)]
  | p :: rest =>
    if p = end_range + 1 then collapseRuns start_range p rest
    else (start_range, end_range) :: collapseRuns p p rest

/-- The runs of a sorted port list (`ports[0]` seeds both bounds). -/
def rangePairs : List Nat → List (Nat × Nat)
  | [] => []
  | p :: rest => collapseRuns p p rest

/-- Emission of one run (source lines 774–777 / 781–784): a bare specifier
for a singleton run, `start-end` for a longer one, each prefixed. -/
def renderRange (pfx : String) (pr : Nat × Nat) : String :=
  if pr.1 = pr.2 then pfx ++ Nat.repr pr.1
  else pfx ++ Nat.repr pr.1 ++ "-" ++ Nat.repr pr.2

/-- `_generate_interface_ranges(port_set)` with the interface prefix made
explicit: sort ascending, collapse maximal consecutive runs, render. -/
def generate_interface_ranges (pfx : String) (port_set : Finset Nat) : List String :=
  (rangePairs (port_set.sort (· ≤ ·))).map (renderRange pfx)

/-- Re-expansion of an emitted specifier: the single port of a bare
specifier, every integer of a hyphenated `start-end` one. -/
def expandRange (pr : Nat × Nat) : List Nat :=
  List.range' pr.1 (pr.2 + 1 - pr.1)

theorem collapseRuns_expand (rest : List Nat) :
    ∀ s e, s ≤ e → List.Chain (· < ·) e rest →
      (collapseRuns s e rest).flatMap expandRange = List.range' s (e + 1 - s) ++ rest := by
  induction rest with
  | nil =>
    intro s e _ _
    simp [collapseRuns, expandRange]
  | cons p rest ih =>
    intro s e hse hch
    cases hch with
    | cons hep hch =>
      by_cases hpe : p = e + 1
      · simp only [collapseRuns, if_pos hpe]
        rw [ih s p (le_trans hse (Nat.le_of_lt hep)) hch]
        subst hpe
        have h1 : List.range' s (e + 1 - s) ++ [e + 1] = List.range' s (e + 1 + 1 - s) := by
          have h2 := List.range'_append s (e + 1 - s) 1 1
          simp only [Nat.mul_one, Nat.one_mul, List.range'_one] at h2
          rw [show s + (e + 1 - s) = e + 1 by omega] at h2
          rw [show 1 + (e + 1 - s) = e + 1 + 1 - s by omega] at h2
          exact h2
        rw [← h1]
        simp
      · simp only [collapseRuns, if_neg hpe]
        rw [List.flatMap_cons, ih p p le_rfl hch]
        simp [expandRange]

/-- C3.  Compressing any finite port set and re-expanding each emitted run
reconstructs exactly the sorted original list (hence the original set,
with no duplicates); and the set `{1,2,3,5,7,8}` with prefix `Gi0/0/`
yields exactly `["Gi0/0/1-3", "Gi0/0/5", "Gi0/0/7-8"]` in that order. -/
theorem interface_range_compression_round_trip :
    (∀ s : Finset Nat,
      (rangePairs (s.sort (· ≤ ·))).flatMap expandRange = s.sort (· ≤ ·) ∧
      ((rangePairs (s.sort (· ≤ ·))).flatMap expandRange).Nodup ∧
      (∀ p : Nat, p ∈ (rangePairs (s.sort (· ≤ ·))).flatMap expandRange ↔ p ∈ s)) ∧
    generate_interface_ranges "Gi0/0/" {1, 2, 3, 5, 7, 8} =
      ["Gi0/0/1-3", "Gi0/0/5", "Gi0/0/7-8"] := by
  have main : ∀ s : Finset Nat,
      (rangePairs (s.sort (· ≤ ·))).flatMap expandRange = s.sort (· ≤ ·) := by
    intro s
    rcases hl : s.sort (· ≤ ·) with _ | ⟨p, rest⟩
    · simp [rangePairs]
    · have hsorted := Finset.sort_sorted_lt s
      rw [hl] at hsorted
      have hch : List.Chain (· < ·) p rest := List.chain_iff_pairwise.mpr hsorted
      show (collapseRuns p p rest).flatMap expandRange = p :: rest
      rw [collapseRuns_expand rest p p le_rfl hch]
      simp
  have hs : ({1, 2, 3, 5, 7, 8} : Finset Nat).sort (· ≤ ·) = [1, 2, 3, 5, 7, 8] := by
    rw [Finset.sort_insert (· ≤ ·) (by decide) (by decide),
      Finset.sort_insert (· ≤ ·) (by decide) (by decide),
      Finset.sort_insert (· ≤ ·) (by decide) (by decide),
      Finset.sort_insert (· ≤ ·) (by decide) (by decide),
      Finset.sort_insert (· ≤ ·) (by decide) (by decide),
      Finset.sort_singleton]
  refine ⟨fun s => ⟨main s, ?_, ?_⟩, ?_⟩
  · rw [main s]; exact Finset.sort_nodup (· ≤ ·) s
  · intro p; rw [main s]; exact Finset.mem_sort (· ≤ ·)
  · show (rangePairs (({1, 2, 3, 5, 7, 8} : Finset Nat).sort (· ≤ ·))).map
        (renderRange "Gi0/0/") = _
    rw [hs]
    decide

/-! ## Direct updates (source lines 1169–1286) -/

/-- Dict write behaviour of `setPort` at the level of `lookupPort`. -/
theorem lookupPort_setPort (store : PortStore) (q : Nat) (c : PortConfig) (p : Nat) :
    lookupPort (setPort store q c) p = if q = p then some c else lookupPort store p := by
  induction store with
  | nil =>
    show lookupPort [(q, c)] p = _
    simp [lookupPort]
  | cons kv rest ih =>
    obtain ⟨k, c0⟩ := kv
    show lookupPort (if k = q then (k, c) :: rest else (k, c0) :: setPort rest q c) p = _
    by_cases hkq : k = q
    · subst hkq
      simp only [if_pos rfl]
      show (if k = p then some c else lookupPort rest p) = _
      by_cases hkp : k = p <;> simp [hkp, lookupPort]
    · rw [if_neg hkq]
      show (if k = p then some c0 else lookupPort (setPort rest q c) p) = _
      by_cases hkp : k = p
      · subst hkp
        rw [if_pos rfl, if_neg (fun h => hkq h.symm)]
        simp [lookupPort]
      · rw [if_neg hkp, ih]
        simp [lookupPort, hkp]

/-- `port_num in self.port_configs and mode is trunk` — the qualification
test of the direct-update loops (source lines 1206–1207 / 1265–1266). -/
def isTrunkConfigured (store : PortStore) (p : Nat) : Bool :=
  match lookupPort store p with
  | some c => pyLower c.mode == "trunk"
  | none => false

/-- The shared `for port_num in focused_ports:` loop of the two direct
updates (source lines 1204–1209 and 1263–1268): apply `f` to the records
of qualifying ports only, collecting them in `updated_ports`. -/
def direct_update_loop (f : PortConfig → PortConfig) :
    List Nat → PortStore → PortStore × List Nat
  | [], store => (store, [])
  | p :: rest, store =>
    match lookupPort store p with
    | some c =>
      if pyLower c.mode == "trunk" then
        let r := direct_update_loop f rest (setPort store p (f c))
        (r.1, p :: r.2)
      else direct_update_loop f rest store
    | none => direct_update_loop f rest store

/-- `_direct_update_native_vlan` (source lines 1169–1227): validate the
entry (before any history push), default to `"1"`, push a snapshot, then
update only configured trunk-mode ports. -/
def direct_update_native_vlan (st : AppState) (ports : List Nat) (raw : String) :
    AppState × List Nat × Outcome :=
  if ports = [] then (st, [], .noSelection)
  else
    let native0 := pyStrip raw
    let nativeOk : Bool :=
      match pyInt? native0 with
      | some v => decide (1 ≤ v ∧ v ≤ 4094)
      | none => false
    if native0 ≠ "" && !nativeOk then (st, [], .invalid)
    else
      let native := if native0 = "" then "1" else native0
      let st1 := pushHistory st
      let r := direct_update_loop (fun c => { c with native_vlan := some native })
        ports st1.port_configs
      ({ st1 with port_configs := r.1 }, r.2, .applied)

/-- `_direct_update_allowed_vlans` (source lines 1229–1286): default empty
entry to `"ALL"`, require at least one digit unless `"all"`, push a
snapshot, then update only configured trunk-mode ports. -/
def direct_update_allowed_vlans (st : AppState) (ports : List Nat) (raw : String) :
    AppState × List Nat × Outcome :=
  if ports = [] then (st, [], .noSelection)
  else
    let allowed0 := pyStrip raw
    let allowed := if allowed0 = "" then "ALL" else allowed0
    if pyLower allowed ≠ "all" && !(allowed.data.any Char.isDigit) then (st, [], .invalid)
    else
      let st1 := pushHistory st
      let r := direct_update_loop (fun c => { c with allowed_vlans := some allowed })
        ports st1.port_configs
      ({ st1 with port_configs := r.1 }, r.2, .applied)

theorem direct_update_loop_frame (f : PortConfig → PortConfig) (ports : List Nat)
    (store : PortStore) (p : Nat)
    (hp : ¬(p ∈ ports ∧ isTrunkConfigured store p = true)) :
    lookupPort (direct_update_loop f ports store).1 p = lookupPort store p ∧
    p ∉ (direct_update_loop f ports store).2 := by
  induction ports generalizing store with
  | nil => exact ⟨rfl, by simp [direct_update_loop]⟩
  | cons q rest ih =>
    have hp' : ¬(p ∈ rest ∧ isTrunkConfigured store p = true) :=
      fun h => hp ⟨List.mem_cons_of_mem q h.1, h.2⟩
    simp only [direct_update_loop]
    cases hq : lookupPort store q with
    | none =>
      simp only [hq]
      exact ih store hp'
    | some c =>
      simp only [hq]
      by_cases hc : (pyLower c.mode == "trunk") = true
      · rw [if_pos hc]
        by_cases hpq : p = q
        · exact absurd ⟨by simp [hpq], by simp [isTrunkConfigured, hpq, hq, hc]⟩ hp
        · have hlook : lookupPort (setPort store q (f c)) p = lookupPort store p := by
            rw [lookupPort_setPort, if_neg (fun h => hpq h.symm)]
          have htc : isTrunkConfigured (setPort store q (f c)) p =
              isTrunkConfigured store p := by
            simp [isTrunkConfigured, hlook]
          have hrec := ih (setPort store q (f c)) (by rw [htc]; exact hp')
          refine ⟨by rw [hrec.1, hlook], ?_⟩
          simp only [List.mem_cons, not_or]
          exact ⟨hpq, hrec.2⟩
      · rw [if_neg hc]
        exact ih store hp'

/-- C8.  For a non-empty selection, the direct updates for native VLAN and
allowed VLANs modify only selected ports that are already configured in
trunk mode: any port that is not a selected trunk-configured port keeps
its `lookupPort` result unchanged and is excluded from the reported
`updated_ports` list, for both operations. -/
theorem direct_updates_touch_only_trunk_ports (st : AppState) (ports : List Nat)
    (rawN rawA : String) (p : Nat) (hne : ports ≠ [])
    (hp : ¬(p ∈ ports ∧ isTrunkConfigured st.port_configs p = true)) :
    (lookupPort (direct_update_native_vlan st ports rawN).1.port_configs p =
        lookupPort st.port_configs p ∧
      p ∉ (direct_update_native_vlan st ports rawN).2.1) ∧
    (lookupPort (direct_update_allowed_vlans st ports rawA).1.port_configs p =
        lookupPort st.port_configs p ∧
      p ∉ (direct_update_allowed_vlans st ports rawA).2.1) := by
  constructor
  · simp only [direct_update_native_vlan, if_neg hne]
    repeat' split
    all_goals first
      | exact ⟨rfl, by simp⟩
      | exact direct_update_loop_frame _ ports st.port_configs p hp
  · simp only [direct_update_allowed_vlans, if_neg hne]
    repeat' split
    all_goals first
      | exact ⟨rfl, by simp⟩
      | exact direct_update_loop_frame _ ports st.port_configs p hp

/-- C8, witness: with port 1 access-configured (state A of the C1 run) and
selection `[1, 2]`, both direct updates leave port 1's record and port 2's
absence untouched and report neither. -/
theorem direct_updates_touch_only_trunk_ports_witness :
    (lookupPort (direct_update_native_vlan stateA [1, 2] "30").1.port_configs 1 =
        lookupPort stateA.port_configs 1 ∧
      1 ∉ (direct_update_native_vlan stateA [1, 2] "30").2.1) ∧
    (lookupPort (direct_update_allowed_vlans stateA [1, 2] "30").1.port_configs 1 =
        lookupPort stateA.port_configs 1 ∧
      1 ∉ (direct_update_allowed_vlans stateA [1, 2] "30").2.1) :=
  direct_updates_touch_only_trunk_ports stateA [1, 2] "30" "30" 1
    (by decide) (by decide)

/-! ## Correctness of Python `str(k)` / `int(k)` on natural keys

`str(k)` is embedded as `Nat.repr`; the lemmas below show that `int`
parses it back, which the persistence round trip needs for the port
keys. -/

theorem digitChar_isDigit {m : Nat} (h : m < 10) : (Nat.digitChar m).isDigit = true := by
  interval_cases m <;> decide

theorem digitChar_sub48 {m : Nat} (h : m < 10) : (Nat.digitChar m).toNat - 48 = m := by
  interval_cases m <;> decide

theorem digitsToNat_append (l : List Char) (c : Char) :
    digitsToNat (l ++ [c]) = 10 * digitsToNat l + (c.toNat - 48) := by
  simp [digitsToNat, List.foldl_append]

theorem toDigitsCore_append (fuel : Nat) :
    ∀ n ds, Nat.toDigitsCore 10 fuel n ds = Nat.toDigitsCore 10 fuel n [] ++ ds := by
  induction fuel with
  | zero => intro n ds; simp [Nat.toDigitsCore]
  | succ fuel ih =>
    intro n ds
    simp only [Nat.toDigitsCore]
    by_cases h : n / 10 = 0
    · simp [h]
    · rw [if_neg h, if_neg h, ih (n / 10) (Nat.digitChar (n % 10) :: ds),
        ih (n / 10) [Nat.digitChar (n % 10)]]
      simp

theorem toDigitsCore_spec (fuel : Nat) :
    ∀ n, n < 10 ^ fuel →
      digitsToNat (Nat.toDigitsCore 10 fuel n []) = n ∧
      (∀ c ∈ Nat.toDigitsCore 10 fuel n [], c.isDigit = true) ∧
      (0 < fuel → Nat.toDigitsCore 10 fuel n [] ≠ []) := by
  induction fuel with
  | zero =>
    intro n h
    have hn : n = 0 := by omega
    subst hn
    refine ⟨rfl, by simp [Nat.toDigitsCore], fun hf => absurd hf (by omega)⟩
  | succ fuel ih =>
    intro n h
    simp only [Nat.toDigitsCore]
    by_cases h0 : n / 10 = 0
    · rw [if_pos h0]
      have hn : n < 10 := by omega
      have hmod : n % 10 = n := Nat.mod_eq_of_lt hn
      refine ⟨?_, ?_, fun _ => by simp⟩
      · rw [hmod]
        show 10 * 0 + ((Nat.digitChar n).toNat - 48) = n
        rw [digitChar_sub48 hn]
        omega
      · intro c hc
        simp only [List.mem_singleton] at hc
        subst hc
        rw [hmod]
        exact digitChar_isDigit hn
    · rw [if_neg h0]
      have hdiv : n / 10 < 10 ^ fuel := by
        have hlt : n < 10 ^ fuel * 10 := by
          rw [← pow_succ]
          exact h
        omega
      obtain ⟨ihv, ihd, _⟩ := ih (n / 10) hdiv
      rw [toDigitsCore_append]
      refine ⟨?_, ?_, fun _ => by simp⟩
      · rw [digitsToNat_append, ihv, digitChar_sub48 (Nat.mod_lt n (by norm_num))]
        omega
      · intro c hc
        rw [List.mem_append] at hc
        rcases hc with hc | hc
        · exact ihd c hc
        · simp only [List.mem_singleton] at hc
          subst hc
          exact digitChar_isDigit (Nat.mod_lt n (by norm_num))

theorem repr_spec (n : Nat) :
    digitsToNat (Nat.repr n).data = n ∧
    (∀ c ∈ (Nat.repr n).data, c.isDigit = true) ∧ (Nat.repr n).data ≠ [] := by
  have h : n < 10 ^ (n + 1) :=
    lt_of_lt_of_le (Nat.lt_two_pow n)
      (le_trans (Nat.pow_le_pow_left (by norm_num) n)
        (Nat.pow_le_pow_right (by norm_num) (Nat.le_succ n)))
  have hs := toDigitsCore_spec (n + 1) n h
  exact ⟨hs.1, hs.2.1, hs.2.2 (Nat.succ_pos n)⟩

theorem isDigit_not_ws {c : Char} (h : c.isDigit = true) : c.isWhitespace = false := by
  have h1 : ¬(c = ' ') := fun hc => absurd h (by subst hc; decide)
  have h2 : ¬(c = '\t') := fun hc => absurd h (by subst hc; decide)
  have h3 : ¬(c = '\r') := fun hc => absurd h (by subst hc; decide)
  have h4 : ¬(c = '\n') := fun hc => absurd h (by subst hc; decide)
  simp [Char.isWhitespace, h1, h2, h3, h4]

theorem stripL_of_digits {l : List Char} (h : ∀ c ∈ l, c.isDigit = true) :
    stripL l = l := by
  have hws : ∀ c ∈ l, Char.isWhitespace c = false := fun c hc => isDigit_not_ws (h c hc)
  have hdrop : ∀ (m : List Char), (∀ c ∈ m, Char.isWhitespace c = false) →
      m.dropWhile Char.isWhitespace = m := by
    intro m hm
    cases m with
    | nil => rfl
    | cons c cs =>
      rw [List.dropWhile_cons, hm c (List.mem_cons_self c cs)]
      simp
  unfold stripL
  rw [hdrop l hws, hdrop l.reverse (fun c hc => hws c (List.mem_reverse.mp hc)),
    List.reverse_reverse]

theorem pyInt?_repr (n : Nat) : pyInt? (Nat.repr n) = some (n : Int) := by
  obtain ⟨hval, hdig, hne⟩ := repr_spec n
  unfold pyInt?
  rw [show stripL (Nat.repr n).data = (Nat.repr n).data from stripL_of_digits hdig]
  rcases hl : (Nat.repr n).data with _ | ⟨c, cs⟩
  · exact absurd hl hne
  · have hc : c.isDigit = true := hdig c (by rw [hl]; exact List.mem_cons_self c cs)
    have hminus : ¬(c = '-') := fun hh => absurd hc (by subst hh; decide)
    have hplus : ¬(c = '+') := fun hh => absurd hc (by subst hh; decide)
    have hall : pyIsDigitL (c :: cs) = true := by
      have hmem : ∀ x ∈ c :: cs, x.isDigit = true := by
        rw [← hl]
        exact hdig
      simp only [pyIsDigitL, List.isEmpty_cons, Bool.not_false, Bool.true_and]
      rw [List.all_eq_true]
      exact hmem
    change (if c = '-' then if pyIsDigitL cs = true then some (-(digitsToNat cs : Int)) else none
      else if c = '+' then if pyIsDigitL cs = true then some (digitsToNat cs : Int) else none
      else if pyIsDigitL (c :: cs) = true then some (digitsToNat (c :: cs) : Int)
      else none) = some (n : Int)
    rw [if_neg hminus, if_neg hplus, if_pos hall, ← hl, hval]

theorem stripL_of_no_ws (l : List Char)
    (h : ∀ c ∈ l, Char.isWhitespace c = false) : stripL l = l := by
  have hdrop : ∀ (m : List Char), (∀ c ∈ m, Char.isWhitespace c = false) →
      m.dropWhile Char.isWhitespace = m := by
    intro m hm
    cases m with
    | nil => rfl
    | cons c cs =>
      rw [List.dropWhile_cons, hm c (List.mem_cons_self c cs)]
      simp
  unfold stripL
  rw [hdrop l h, hdrop l.reverse (fun c hc => h c (List.mem_reverse.mp hc)),
    List.reverse_reverse]

/-- Python `str` on an `int`. -/
def intStr (v : Int) : String :=
  if v < 0 then "-" ++ Nat.repr (-v).toNat else Nat.repr v.toNat

theorem pyInt?_intStr (v : Int) : pyInt? (intStr v) = some v := by
  by_cases hv : v < 0
  · obtain ⟨hval, hdig, hne⟩ := repr_spec (-v).toNat
    have hdata : (intStr v).data = '-' :: (Nat.repr (-v).toNat).data := by
      unfold intStr
      rw [if_pos hv]
      rfl
    have hsl : stripL (intStr v).data = '-' :: (Nat.repr (-v).toNat).data := by
      rw [hdata]
      refine stripL_of_no_ws _ ?_
      intro c hc
      rcases List.mem_cons.mp hc with hc | hc
      · subst hc
        decide
      · exact isDigit_not_ws (hdig c hc)
    have hall : pyIsDigitL (Nat.repr (-v).toNat).data = true := by
      rcases hl : (Nat.repr (-v).toNat).data with _ | ⟨c, cs⟩
      · exact absurd hl hne
      · simp only [pyIsDigitL, List.isEmpty_cons, Bool.not_false, Bool.true_and]
        rw [List.all_eq_true]
        intro x hx
        exact hdig x (by rw [hl]; exact hx)
    unfold pyInt?
    rw [hsl]
    change (if ('-' : Char) = '-' then
        if pyIsDigitL (Nat.repr (-v).toNat).data then
          some (-(digitsToNat (Nat.repr (-v).toNat).data : Int)) else none
      else if ('-' : Char) = '+' then
        if pyIsDigitL (Nat.repr (-v).toNat).data then
          some (digitsToNat (Nat.repr (-v).toNat).data : Int) else none
      else if pyIsDigitL ('-' :: (Nat.repr (-v).toNat).data) then
        some (digitsToNat ('-' :: (Nat.repr (-v).toNat).data) : Int)
      else none) = some v
    rw [if_pos rfl, if_pos hall, hval]
    have hcast : (((-v).toNat : Nat) : Int) = -v := by omega
    rw [hcast]
    simp
  · have hrepr : intStr v = Nat.repr v.toNat := by
      unfold intStr
      rw [if_neg hv]
    rw [hrepr, pyInt?_repr]
    congr 1
    omega

/-! ## JSON persistence (source lines 2647–2758)

The on-disk JSON format; `json.dump`/`json.load` preserve the structure.
`_save_port_configs` dumps `{str(k): v}` over the port-config dicts and
`_load_port_configs` rebuilds `{int(k): v}`; `json.load` keeps each VLAN
field exactly as stored, whether the JSON held a string or a number, so
the persistence-level record `PortRecord` carries a string-or-number
value in the four optional VLAN fields (the operations themselves only
ever write strings; `PortConfig.record` is that embedding).
`_save_global_configs` first calls `_update_global_configs_from_ui`,
which re-reads the flat settings from the UI entries and rebuilds the
`vlans` map from `configured_vlans` with the synthetic names `VLAN_{id}`
(source lines 2755–2758), and only then dumps the dict. -/

inductive JValue where
  | jstr (s : String)
  | jnum (n : Int)
  | jbool (b : Bool)
  | jobj (fields : List (String × JValue))

/-- A JSON-primitive VLAN value as `json.load` keeps it: the string or
the number found on disk. -/
inductive JPrim where
  | jps (v : String)
  | jpi (n : Int)
deriving DecidableEq

/-- A port-config dict as the persistence layer sees it: the four
optional VLAN fields hold whatever primitive the JSON stored. -/
structure PortRecord where
  mode : String
  description : String
  portfast : Bool
  qos_trust : Bool
  data_vlan : Option JPrim := none
  voice_vlan : Option JPrim := none
  native_vlan : Option JPrim := none
  allowed_vlans : Option JPrim := none
deriving DecidableEq

/-- The operations store VLAN ids as strings; a `PortConfig` state is the
all-string case of the persistence record. -/
def PortConfig.record (c : PortConfig) : PortRecord :=
  { mode := c.mode, description := c.description, portfast := c.portfast,
    qos_trust := c.qos_trust, data_vlan := c.data_vlan.map JPrim.jps,
    voice_vlan := c.voice_vlan.map JPrim.jps,
    native_vlan := c.native_vlan.map JPrim.jps,
    allowed_vlans := c.allowed_vlans.map JPrim.jps }

def jprimToJson : JPrim → JValue
  | .jps v => .jstr v
  | .jpi n => .jnum n

def optJsonField (k : String) : Option JPrim → List (String × JValue)
  | some v => [(k, jprimToJson v)]
  | none => []

/-- A port-config dict as its JSON object (booleans as JSON booleans,
each present VLAN field as the primitive it holds). -/
def portRecordToJson (r : PortRecord) : JValue :=
  .jobj ([("mode", .jstr r.mode), ("description", .jstr r.description),
          ("portfast", .jbool r.portfast), ("qos_trust", .jbool r.qos_trust)] ++
    optJsonField "data_vlan" r.data_vlan ++ optJsonField "voice_vlan" r.voice_vlan ++
    optJsonField "native_vlan" r.native_vlan ++ optJsonField "allowed_vlans" r.allowed_vlans)

/-- First-match key lookup in a JSON object, as a Python dict read. -/
def jLookup : List (String × JValue) → String → Option JValue
  | [], _ => none
  | (k, v) :: rest, key => if k = key then some v else jLookup rest key

def jStrField (fields : List (String × JValue)) (k : String) : Option String :=
  match jLookup fields k with
  | some (.jstr v) => some v
  | _ => none

def jBoolField (fields : List (String × JValue)) (k : String) : Option Bool :=
  match jLookup fields k with
  | some (.jbool b) => some b
  | _ => none

/-- A VLAN field as `json.load` keeps it: a string stays a string, a
number stays a number, an absent key stays absent. -/
def jPrimField (fields : List (String × JValue)) (k : String) : Option JPrim :=
  match jLookup fields k with
  | some (.jstr v) => some (.jps v)
  | some (.jnum n) => some (.jpi n)
  | _ => none

def jsonToPortConfig (j : JValue) : Option PortRecord :=
  match j with
  | .jobj fields =>
    match jLookup fields "mode", jLookup fields "description",
        jLookup fields "portfast", jLookup fields "qos_trust" with
    | some (.jstr m), some (.jstr d), some (.jbool pf), some (.jbool qt) =>
      some { mode := m, description := d, portfast := pf, qos_trust := qt,
             data_vlan := jPrimField fields "data_vlan",
             voice_vlan := jPrimField fields "voice_vlan",
             native_vlan := jPrimField fields "native_vlan",
             allowed_vlans := jPrimField fields "allowed_vlans" }
    | _, _, _, _ => none
  | _ => none

theorem jsonToPortConfig_roundtrip (r : PortRecord) :
    jsonToPortConfig (portRecordToJson r) = some r := by
  rcases r with ⟨m, d, pf, qt, dv, vv, nv, av⟩
  rcases dv with _ | (v1 | n1) <;> rcases vv with _ | (v2 | n2) <;>
    rcases nv with _ | (v3 | n3) <;> rcases av with _ | (v4 | n4) <;> rfl

/-- The dict comprehensions of `_save_port_configs` / `_load_port_configs`
traverse entries one by one; a single failing entry fails the load. -/
def mapOptionList (f : α → Option β) : List α → Option (List β)
  | [] => some []
  | x :: xs =>
    match f x, mapOptionList f xs with
    | some y, some ys => some (y :: ys)
    | _, _ => none

/-- `_save_port_configs`: `{str(k): v for k, v in port_configs.items()}`
dumped as JSON. -/
def save_port_configs (store : List (Nat × PortRecord)) : JValue :=
  .jobj (store.map (fun kv => (Nat.repr kv.1, portRecordToJson kv.2)))

/-- One entry of `_load_port_configs`'s `{int(k): v for k, v in ...}`.
The program's own port keys are naturals (`str(k)` of a port number), so
the loaded integer is cast back to a natural. -/
def load_port_entry (kv : String × JValue) : Option (Nat × PortRecord) :=
  match pyInt? kv.1, jsonToPortConfig kv.2 with
  | some n, some c => if 0 ≤ n then some (n.toNat, c) else none
  | _, _ => none

/-- `_load_port_configs`. -/
def load_port_configs (j : JValue) : Option (List (Nat × PortRecord)) :=
  match j with
  | .jobj fields => mapOptionList load_port_entry fields
  | _ => none

theorem load_port_entry_save (k : Nat) (r : PortRecord) :
    load_port_entry (Nat.repr k, portRecordToJson r) = some (k, r) := by
  unfold load_port_entry
  rw [pyInt?_repr, jsonToPortConfig_roundtrip]
  simp

theorem load_save_port_configs (store : List (Nat × PortRecord)) :
    load_port_configs (save_port_configs store) = some store := by
  show mapOptionList load_port_entry
    (store.map (fun kv => (Nat.repr kv.1, portRecordToJson kv.2))) = some store
  induction store with
  | nil => rfl
  | cons kv rest ih =>
    obtain ⟨k, r⟩ := kv
    simp only [List.map_cons, mapOptionList, load_port_entry_save, ih]

/-- `self.global_configs` (source lines 123–138 / 2735–2758): flat string
and boolean settings plus the `vlans` map of string VLAN id to name. -/
structure GlobalConfig where
  hostname : String
  enable_secret : String
  line_password : String
  vty_ssh : Bool
  vty_telnet : Bool
  pwd_encrypt : Bool
  no_domain_lookup : Bool
  vlans : List (String × String)
  svi_interface : String
  svi_ip : String
  svi_mask : String
  svi_desc : String
  gateway_ip : String
deriving DecidableEq

/-- `json.dump` of the `global_configs` dict. -/
def globalConfigsToJson (g : GlobalConfig) : JValue :=
  .jobj [("hostname", .jstr g.hostname), ("enable_secret", .jstr g.enable_secret),
    ("line_password", .jstr g.line_password), ("vty_ssh", .jbool g.vty_ssh),
    ("vty_telnet", .jbool g.vty_telnet), ("pwd_encrypt", .jbool g.pwd_encrypt),
    ("no_domain_lookup", .jbool g.no_domain_lookup),
    ("vlans", .jobj (g.vlans.map (fun kv => (kv.1, JValue.jstr kv.2)))),
    ("svi_interface", .jstr g.svi_interface), ("svi_ip", .jstr g.svi_ip),
    ("svi_mask", .jstr g.svi_mask), ("svi_desc", .jstr g.svi_desc),
    ("gateway_ip", .jstr g.gateway_ip)]

/-- `_update_global_configs_from_ui` (source lines 2735–2758): the flat
settings are re-read from the UI entries — the fields of `g`, which model
exactly those entries' current values — and the `vlans` map is rebuilt
from `configured_vlans` (iterated in the order `configured`) with the
synthetic name `VLAN_{id}` for every id, discarding whatever names the
map held. -/
def update_global_configs_from_ui (g : GlobalConfig) (configured : List Int) :
    GlobalConfig :=
  { g with vlans := configured.map (fun v => (intStr v, "VLAN_" ++ intStr v)) }

/-- `_save_global_configs` (source lines 2685–2702): update the dict from
the UI — including the `vlans` rebuild — then dump it as JSON. -/
def save_global_configs (g : GlobalConfig) (configured : List Int) : JValue :=
  globalConfigsToJson (update_global_configs_from_ui g configured)

def jsonToVlans (j : JValue) : Option (List (String × String)) :=
  match j with
  | .jobj fields =>
    mapOptionList (fun kv =>
      match kv.2 with
      | .jstr v => some (kv.1, v)
      | _ => none) fields
  | _ => none

/-- `_load_global_configs`: `self.global_configs = json.load(f)`, read
back into the typed view. -/
def load_global_configs (j : JValue) : Option GlobalConfig :=
  match j with
  | .jobj fields => do
    let hostname ← jStrField fields "hostname"
    let enable_secret ← jStrField fields "enable_secret"
    let line_password ← jStrField fields "line_password"
    let vty_ssh ← jBoolField fields "vty_ssh"
    let vty_telnet ← jBoolField fields "vty_telnet"
    let pwd_encrypt ← jBoolField fields "pwd_encrypt"
    let no_domain_lookup ← jBoolField fields "no_domain_lookup"
    let vlansJ ← jLookup fields "vlans"
    let vlans ← jsonToVlans vlansJ
    let svi_interface ← jStrField fields "svi_interface"
    let svi_ip ← jStrField fields "svi_ip"
    let svi_mask ← jStrField fields "svi_mask"
    let svi_desc ← jStrField fields "svi_desc"
    let gateway_ip ← jStrField fields "gateway_ip"
    pure { hostname := hostname, enable_secret := enable_secret,
           line_password := line_password, vty_ssh := vty_ssh,
           vty_telnet := vty_telnet, pwd_encrypt := pwd_encrypt,
           no_domain_lookup := no_domain_lookup, vlans := vlans,
           svi_interface := svi_interface, svi_ip := svi_ip,
           svi_mask := svi_mask, svi_desc := svi_desc, gateway_ip := gateway_ip }
  | _ => none

/-- The VLAN-registry reload of `_load_global_configs` (source lines
2720–2727): `configured_vlans.add(int(vlan_id_str))` for every key of the
loaded `vlans` map, skipping keys that fail `int`. -/
def load_configured_vlans (vlans : List (String × String)) : List Int :=
  vlans.filterMap (fun kv => pyInt? kv.1)

theorem jsonToVlans_roundtrip (l : List (String × String)) :
    jsonToVlans (.jobj (l.map (fun kv => (kv.1, JValue.jstr kv.2)))) = some l := by
  show mapOptionList _ (l.map (fun kv => (kv.1, JValue.jstr kv.2))) = some l
  induction l with
  | nil => rfl
  | cons kv rest ih =>
    obtain ⟨k, v⟩ := kv
    simp only [List.map_cons, mapOptionList, ih]

theorem load_globalConfigsToJson (g : GlobalConfig) :
    load_global_configs (globalConfigsToJson g) = some g := by
  obtain ⟨h, es, lp, vs, vt, pe, nd, vl, si, sip, sm, sd, gw⟩ := g
  simp only [load_global_configs, globalConfigsToJson, jStrField, jBoolField, jLookup]
  simp [jsonToVlans_roundtrip]

theorem load_configured_vlans_rebuild (configured : List Int) :
    load_configured_vlans
      (configured.map (fun v => (intStr v, "VLAN_" ++ intStr v))) = configured := by
  induction configured with
  | nil => rfl
  | cons v rest ih =>
    unfold load_configured_vlans at ih ⊢
    simp only [List.map_cons, List.filterMap_cons, pyInt?_intStr]
    rw [ih]

/-- A global configuration whose `vlans` map carries the name
`DATA_VLAN_10` for VLAN 10, exactly as `_create_vlan(10)` writes it. -/
def gNamed : GlobalConfig :=
  { hostname := "sw1", enable_secret := "", line_password := "",
    vty_ssh := true, vty_telnet := true, pwd_encrypt := true,
    no_domain_lookup := true, vlans := [("10", "DATA_VLAN_10")],
    svi_interface := "Vlan1", svi_ip := "", svi_mask := "255.255.255.0",
    svi_desc := "", gateway_ip := "" }

/-- C9, counterexample: saving the global configuration rewrites every
VLAN name to `VLAN_{id}` — the `vlans` rebuild of
`_update_global_configs_from_ui` runs unconditionally before the dump —
so with VLAN 10 registered, reloading returns the name `VLAN_10` in place
of the stored `DATA_VLAN_10`, and the reloaded state is not per-field
equal to the original. -/
theorem global_vlan_names_not_round_tripped :
    load_global_configs (save_global_configs gNamed [10]) =
      some { gNamed with vlans := [("10", "VLAN_10")] } ∧
    ({ gNamed with vlans := [("10", "VLAN_10")] } : GlobalConfig) ≠ gNamed := by
  constructor
  · decide
  · decide

/-- C9 (amended).  Port configurations round-trip exactly through the
JSON persistence format: keys are written as `str(k)` and parsed back to
the same integers, and every VLAN field — whether the JSON stores it as a
string or as a number — is reloaded verbatim.  The global configuration's
flat settings also round-trip, but `_save_global_configs` first rebuilds
the `vlans` map from the `configured_vlans` registry with synthetic names
`VLAN_{id}`, so reloading yields that rebuilt map rather than the
in-memory VLAN names, while the registry itself is recovered exactly. -/
theorem persistence_round_trip :
    (∀ store : List (Nat × PortRecord),
      load_port_configs (save_port_configs store) = some store) ∧
    (∀ (g : GlobalConfig) (configured : List Int),
      load_global_configs (save_global_configs g configured) =
        some (update_global_configs_from_ui g configured) ∧
      load_configured_vlans (update_global_configs_from_ui g configured).vlans =
        configured) :=
  ⟨load_save_port_configs,
   fun g configured =>
     ⟨load_globalConfigsToJson (update_global_configs_from_ui g configured),
      load_configured_vlans_rebuild configured⟩⟩

/-! ## Command-generation grouping (`_generate_port_config_commands`,
source lines 2302–2340)

`config_key = tuple(sorted((k, str(v)) for k, v in config.items()))`: the
dict keys are pairwise distinct, so the sorted tuple lists the entries in
alphabetical key order (`allowed_vlans < data_vlan < description < mode <
native_vlan < portfast < qos_trust < voice_vlan`); `str` maps the stored
string values to themselves and booleans to `"True"`/`"False"`. -/

/-- Python `str` on a boolean. -/
def pyStrBool (b : Bool) : String := if b then "True" else "False"

def optKeyEntry (k : String) : Option String → List (String × String)
  | some v => [(k, v)]
  | none => []

/-- The `config_key` of a record. -/
def configKey (c : PortConfig) : List (String × String) :=
  optKeyEntry "allowed_vlans" c.allowed_vlans ++
  optKeyEntry "data_vlan" c.data_vlan ++
  [("description", c.description), ("mode", c.mode)] ++
  optKeyEntry "native_vlan" c.native_vlan ++
  [("portfast", pyStrBool c.portfast), ("qos_trust", pyStrBool c.qos_trust)] ++
  optKeyEntry "voice_vlan" c.voice_vlan

theorem mem_optKeyEntry {k k' v : String} {o : Option String} :
    (k', v) ∈ optKeyEntry k o ↔ k' = k ∧ o = some v := by
  cases o <;> simp [optKeyEntry, Prod.ext_iff, eq_comm]

theorem configKey_mode {c : PortConfig} {v : String} :
    ("mode", v) ∈ configKey c ↔ v = c.mode := by
  simp [configKey, mem_optKeyEntry, Prod.ext_iff]

theorem configKey_description {c : PortConfig} {v : String} :
    ("description", v) ∈ configKey c ↔ v = c.description := by
  simp [configKey, mem_optKeyEntry, Prod.ext_iff]

theorem configKey_portfast {c : PortConfig} {v : String} :
    ("portfast", v) ∈ configKey c ↔ v = pyStrBool c.portfast := by
  simp [configKey, mem_optKeyEntry, Prod.ext_iff]

theorem configKey_qos_trust {c : PortConfig} {v : String} :
    ("qos_trust", v) ∈ configKey c ↔ v = pyStrBool c.qos_trust := by
  simp [configKey, mem_optKeyEntry, Prod.ext_iff]

theorem configKey_data_vlan {c : PortConfig} {v : String} :
    ("data_vlan", v) ∈ configKey c ↔ c.data_vlan = some v := by
  simp [configKey, mem_optKeyEntry, Prod.ext_iff]

theorem configKey_voice_vlan {c : PortConfig} {v : String} :
    ("voice_vlan", v) ∈ configKey c ↔ c.voice_vlan = some v := by
  simp [configKey, mem_optKeyEntry, Prod.ext_iff]

theorem configKey_native_vlan {c : PortConfig} {v : String} :
    ("native_vlan", v) ∈ configKey c ↔ c.native_vlan = some v := by
  simp [configKey, mem_optKeyEntry, Prod.ext_iff]

theorem configKey_allowed_vlans {c : PortConfig} {v : String} :
    ("allowed_vlans", v) ∈ configKey c ↔ c.allowed_vlans = some v := by
  simp [configKey, mem_optKeyEntry, Prod.ext_iff]

theorem pyStrBool_inj {b1 b2 : Bool} (h : pyStrBool b1 = pyStrBool b2) : b1 = b2 := by
  cases b1 <;> cases b2 <;> first | rfl | (exact absurd h (by decide))

/-- The stringified-tuple key identifies the record: distinct records get
distinct `config_key`s. -/
theorem configKey_inj {c1 c2 : PortConfig} (h : configKey c1 = configKey c2) : c1 = c2 := by
  have hmode : c1.mode = c2.mode :=
    (configKey_mode.mp (h ▸ configKey_mode.mpr rfl)).symm
  have hdesc : c1.description = c2.description :=
    (configKey_description.mp (h ▸ configKey_description.mpr rfl)).symm
  have hpf : c1.portfast = c2.portfast :=
    pyStrBool_inj (configKey_portfast.mp (h ▸ configKey_portfast.mpr rfl)).symm
  have hqt : c1.qos_trust = c2.qos_trust :=
    pyStrBool_inj (configKey_qos_trust.mp (h ▸ configKey_qos_trust.mpr rfl)).symm
  have hdata : c1.data_vlan = c2.data_vlan := by
    cases hd : c1.data_vlan with
    | some v => exact (configKey_data_vlan.mp (h ▸ configKey_data_vlan.mpr hd)).symm ▸ rfl
    | none =>
      cases hd2 : c2.data_vlan with
      | some w =>
        have := configKey_data_vlan.mp (h ▸ configKey_data_vlan.mpr hd2)
        rw [hd] at this
        exact absurd this (by simp)
      | none => rfl
  have hvoice : c1.voice_vlan = c2.voice_vlan := by
    cases hd : c1.voice_vlan with
    | some v => exact (configKey_voice_vlan.mp (h ▸ configKey_voice_vlan.mpr hd)).symm ▸ rfl
    | none =>
      cases hd2 : c2.voice_vlan with
      | some w =>
        have := configKey_voice_vlan.mp (h ▸ configKey_voice_vlan.mpr hd2)
        rw [hd] at this
        exact absurd this (by simp)
      | none => rfl
  have hnative : c1.native_vlan = c2.native_vlan := by
    cases hd : c1.native_vlan with
    | some v => exact (configKey_native_vlan.mp (h ▸ configKey_native_vlan.mpr hd)).symm ▸ rfl
    | none =>
      cases hd2 : c2.native_vlan with
      | some w =>
        have := configKey_native_vlan.mp (h ▸ configKey_native_vlan.mpr hd2)
        rw [hd] at this
        exact absurd this (by simp)
      | none => rfl
  have hallowed : c1.allowed_vlans = c2.allowed_vlans := by
    cases hd : c1.allowed_vlans with
    | some v => exact (configKey_allowed_vlans.mp (h ▸ configKey_allowed_vlans.mpr hd)).symm ▸ rfl
    | none =>
      cases hd2 : c2.allowed_vlans with
      | some w =>
        have := configKey_allowed_vlans.mp (h ▸ configKey_allowed_vlans.mpr hd2)
        rw [hd] at this
        exact absurd this (by simp)
      | none => rfl
  cases c1
  cases c2
  simp only [PortConfig.mk.injEq]
  exact ⟨hmode, hdesc, hpf, hqt, hdata, hvoice, hnative, hallowed⟩

/-- `port_groups[config_key].append(port_num)` with creation on first use
(source lines 2332–2335), preserving dict insertion order. -/
def addToGroups (gs : List (List (String × String) × List Nat))
    (k : List (String × String)) (p : Nat) : List (List (String × String) × List Nat) :=
  match gs with
  | [] => [(k, [p])]
  | g :: rest => if g.1 = k then (g.1, g.2 ++ [p]) :: rest else g :: addToGroups rest k p

/-- The grouping loop over the configured ports. -/
def groupsFold (store : PortStore) :
    List Nat → List (List (String × String) × List Nat) →
      List (List (String × String) × List Nat)
  | [], gs => gs
  | p :: rest, gs =>
    match lookupPort store p with
    | some c => groupsFold store rest (addToGroups gs (configKey c) p)
    | none => groupsFold store rest gs

/-- `port_groups` of `_generate_port_config_commands`: sort the requested
ports, keep the configured ones, then group by `config_key`. -/
def port_groups (store : PortStore) (ports : Finset Nat) :
    List (List (String × String) × List Nat) :=
  let sorted_ports := ports.sort (· ≤ ·)
  let configured_ports := sorted_ports.filter (fun p => (lookupPort store p).isSome)
  groupsFold store configured_ports []

/-- Membership of a port in the group keyed `k`. -/
def inGroup (gs : List (List (String × String) × List Nat))
    (k : List (String × String)) (p : Nat) : Prop :=
  ∃ l, (k, l) ∈ gs ∧ p ∈ l

theorem inGroup_addToGroups {gs : List (List (String × String) × List Nat)}
    {k0 k : List (String × String)} {q p : Nat} :
    inGroup (addToGroups gs k0 q) k p ↔ inGroup gs k p ∨ (k = k0 ∧ p = q) := by
  induction gs with
  | nil =>
    constructor
    · rintro ⟨l, hl, hpl⟩
      rw [show addToGroups [] k0 q = [(k0, [q])] from rfl, List.mem_singleton] at hl
      injection hl with hk hlq
      subst hlq
      rw [List.mem_singleton] at hpl
      exact Or.inr ⟨hk, hpl⟩
    · rintro (⟨l, hl, _⟩ | ⟨hk, hp⟩)
      · cases hl
      · exact ⟨[q], by simp [addToGroups, hk], by simp [hp]⟩
  | cons g rest ih =>
    obtain ⟨gk, gl⟩ := g
    show inGroup (if gk = k0 then (gk, gl ++ [q]) :: rest
      else (gk, gl) :: addToGroups rest k0 q) k p ↔ _
    by_cases hg : gk = k0
    · rw [if_pos hg]
      constructor
      · rintro ⟨l, hl, hpl⟩
        rw [List.mem_cons] at hl
        rcases hl with hl | hl
        · injection hl with hk hlq
          subst hlq
          rw [List.mem_append, List.mem_singleton] at hpl
          rcases hpl with hpl | hpl
          · exact Or.inl ⟨gl, List.mem_cons.mpr (Or.inl (by rw [hk])), hpl⟩
          · exact Or.inr ⟨by rw [hk, hg], hpl⟩
        · exact Or.inl ⟨l, List.mem_cons_of_mem _ hl, hpl⟩
      · rintro (⟨l, hl, hpl⟩ | ⟨hk, hp⟩)
        · rw [List.mem_cons] at hl
          rcases hl with hl | hl
          · injection hl with hk hlg
            rw [hlg] at hpl
            exact ⟨gl ++ [q], List.mem_cons.mpr (Or.inl (by rw [hk])),
              List.mem_append_left _ hpl⟩
          · exact ⟨l, List.mem_cons_of_mem _ hl, hpl⟩
        · exact ⟨gl ++ [q], List.mem_cons.mpr (Or.inl (by rw [hk, hg])),
            List.mem_append_right _ (by rw [hp]; exact List.mem_singleton_self q)⟩
    · rw [if_neg hg]
      constructor
      · rintro ⟨l, hl, hpl⟩
        rw [List.mem_cons] at hl
        rcases hl with hl | hl
        · exact Or.inl ⟨l, List.mem_cons.mpr (Or.inl hl), hpl⟩
        · rcases ih.mp ⟨l, hl, hpl⟩ with ⟨l', hl', hpl'⟩ | hkq
          · exact Or.inl ⟨l', List.mem_cons_of_mem _ hl', hpl'⟩
          · exact Or.inr hkq
      · rintro (⟨l, hl, hpl⟩ | hkq)
        · rw [List.mem_cons] at hl
          rcases hl with hl | hl
          · exact ⟨l, List.mem_cons.mpr (Or.inl hl), hpl⟩
          · rcases ih.mpr (Or.inl ⟨l, hl, hpl⟩) with ⟨l', hl', hpl'⟩
            exact ⟨l', List.mem_cons_of_mem _ hl', hpl'⟩
        · rcases ih.mpr (Or.inr hkq) with ⟨l', hl', hpl'⟩
          exact ⟨l', List.mem_cons_of_mem _ hl', hpl'⟩

theorem inGroup_groupsFold (store : PortStore) (ports : List Nat) :
    ∀ (gs : List (List (String × String) × List Nat)) (k : List (String × String)) (p : Nat),
      inGroup (groupsFold store ports gs) k p ↔
        inGroup gs k p ∨
          (p ∈ ports ∧ ∃ c, lookupPort store p = some c ∧ k = configKey c) := by
  induction ports with
  | nil => intro gs k p; simp [groupsFold]
  | cons q rest ih =>
    intro gs k p
    show inGroup (match lookupPort store q with
      | some c => groupsFold store rest (addToGroups gs (configKey c) q)
      | none => groupsFold store rest gs) k p ↔ _
    cases hq : lookupPort store q with
    | none =>
      rw [ih]
      constructor
      · rintro (hin | ⟨hmem, hc⟩)
        · exact Or.inl hin
        · exact Or.inr ⟨List.mem_cons_of_mem q hmem, hc⟩
      · rintro (hin | ⟨hmem, c, hc, hk⟩)
        · exact Or.inl hin
        · rcases List.mem_cons.mp hmem with hpq | hmem'
          · rw [hpq] at hc
            rw [hq] at hc
            cases hc
          · exact Or.inr ⟨hmem', c, hc, hk⟩
    | some c =>
      rw [ih, inGroup_addToGroups]
      constructor
      · rintro ((hin | ⟨hk, hp⟩) | ⟨hmem, hc⟩)
        · exact Or.inl hin
        · subst hp
          exact Or.inr ⟨List.mem_cons_self p rest, c, hq, hk⟩
        · exact Or.inr ⟨List.mem_cons_of_mem q hmem, hc⟩
      · rintro (hin | ⟨hmem, c', hc', hk⟩)
        · exact Or.inl (Or.inl hin)
        · rcases List.mem_cons.mp hmem with hpq | hmem'
          · subst hpq
            rw [hq] at hc'
            injection hc' with hcc
            subst hcc
            exact Or.inl (Or.inr ⟨hk, rfl⟩)
          · exact Or.inr ⟨hmem', c', hc', hk⟩

/-- All members of a group carry the group's key. -/
def groupMembersOk (store : PortStore)
    (gs : List (List (String × String) × List Nat)) : Prop :=
  ∀ g ∈ gs, ∀ x ∈ g.2, ∃ c, lookupPort store x = some c ∧ g.1 = configKey c

theorem groupMembersOk_addToGroups {store : PortStore}
    {gs : List (List (String × String) × List Nat)} {q : Nat} {c : PortConfig}
    (h : groupMembersOk store gs) (hc : lookupPort store q = some c) :
    groupMembersOk store (addToGroups gs (configKey c) q) := by
  induction gs with
  | nil =>
    rintro g hg x hx
    simp only [addToGroups, List.mem_singleton] at hg
    subst hg
    simp only [List.mem_singleton] at hx
    subst hx
    exact ⟨c, hc, rfl⟩
  | cons g0 rest ih =>
    by_cases hg0 : g0.1 = configKey c
    · rintro g hg x hx
      simp only [addToGroups, if_pos hg0, List.mem_cons] at hg
      rcases hg with hg | hg
      · subst hg
        rw [List.mem_append, List.mem_singleton] at hx
        rcases hx with hx | hx
        · exact h g0 (List.mem_cons_self g0 rest) x hx
        · subst hx
          exact ⟨c, hc, hg0⟩
      · exact h g (List.mem_cons_of_mem g0 hg) x hx
    · rintro g hg x hx
      simp only [addToGroups, if_neg hg0, List.mem_cons] at hg
      rcases hg with hg | hg
      · subst hg
        exact h g (List.mem_cons_self g rest) x hx
      · exact ih (fun g' hg' => h g' (List.mem_cons_of_mem g0 hg')) g hg x hx

theorem groupMembersOk_groupsFold (store : PortStore) (ports : List Nat) :
    ∀ gs, groupMembersOk store gs → groupMembersOk store (groupsFold store ports gs) := by
  induction ports with
  | nil => intro gs h; exact h
  | cons q rest ih =>
    intro gs h
    show groupMembersOk store (match lookupPort store q with
      | some c => groupsFold store rest (addToGroups gs (configKey c) q)
      | none => groupsFold store rest gs)
    cases hq : lookupPort store q with
    | none => exact ih gs h
    | some c => exact ih _ (groupMembersOk_addToGroups h hq)

theorem keys_addToGroups (gs : List (List (String × String) × List Nat))
    (k : List (String × String)) (p : Nat) :
    (addToGroups gs k p).map Prod.fst =
      if k ∈ gs.map Prod.fst then gs.map Prod.fst else gs.map Prod.fst ++ [k] := by
  induction gs with
  | nil => simp [addToGroups]
  | cons g rest ih =>
    by_cases hg : g.1 = k
    · simp [addToGroups, if_pos hg, hg]
    · simp only [addToGroups, if_neg hg, List.map_cons, ih]
      by_cases hk : k ∈ rest.map Prod.fst
      · rw [if_pos hk, if_pos (List.mem_cons_of_mem g.1 hk)]
      · rw [if_neg hk, if_neg (fun hmem =>
          (List.mem_cons.mp hmem).elim (fun h1 => hg h1.symm) hk)]
        simp

theorem keys_nodup_addToGroups {gs : List (List (String × String) × List Nat)}
    {k : List (String × String)} {p : Nat} (h : (gs.map Prod.fst).Nodup) :
    ((addToGroups gs k p).map Prod.fst).Nodup := by
  rw [keys_addToGroups]
  split
  · exact h
  · rename_i hk
    rw [List.nodup_append]
    exact ⟨h, List.nodup_singleton k, by simpa [List.disjoint_singleton] using hk⟩

theorem keys_nodup_groupsFold (store : PortStore) (ports : List Nat) :
    ∀ gs, (gs.map Prod.fst).Nodup → ((groupsFold store ports gs).map Prod.fst).Nodup := by
  induction ports with
  | nil => intro gs h; exact h
  | cons q rest ih =>
    intro gs h
    show ((match lookupPort store q with
      | some c => groupsFold store rest (addToGroups gs (configKey c) q)
      | none => groupsFold store rest gs).map Prod.fst).Nodup
    cases lookupPort store q with
    | none => exact ih gs h
    | some c => exact ih _ (keys_nodup_addToGroups h)

theorem group_unique {gs : List (List (String × String) × List Nat)}
    (h : (gs.map Prod.fst).Nodup) {k : List (String × String)} {l1 l2 : List Nat}
    (h1 : (k, l1) ∈ gs) (h2 : (k, l2) ∈ gs) : l1 = l2 := by
  induction gs with
  | nil => cases h1
  | cons g rest ih =>
    rw [List.map_cons, List.nodup_cons] at h
    rcases List.mem_cons.mp h1 with e1 | m1 <;> rcases List.mem_cons.mp h2 with e2 | m2
    · cases e1
      injection e2.symm with _ hl
      try exact hl.symm
    · cases e1
      exact absurd (List.mem_map.mpr ⟨(k, l2), m2, rfl⟩) h.1
    · cases e2
      exact absurd (List.mem_map.mpr ⟨(k, l1), m1, rfl⟩) h.1
    · exact ih h.2 m1 m2

/-- C4.  For every store and requested port set, two configured ports land
in the same `port_groups` group exactly when their records are
structurally equal: identical records always share a group (whatever
order the ports were inserted in — the grouping sorts the ports first),
and records differing in any field are in different groups, because the
stringified sorted key determines the record. -/
theorem command_groups_same_iff (store : PortStore) (ports : Finset Nat)
    (p q : Nat) (cp cq : PortConfig) (hp : p ∈ ports) (hq : q ∈ ports)
    (hcp : lookupPort store p = some cp) (hcq : lookupPort store q = some cq) :
    (∃ g ∈ port_groups store ports, p ∈ g.2 ∧ q ∈ g.2) ↔ cp = cq := by
  have hmembers : groupMembersOk store (port_groups store ports) :=
    groupMembersOk_groupsFold store _ [] (by rintro g hg; cases hg)
  have hkeys : ((port_groups store ports).map Prod.fst).Nodup :=
    keys_nodup_groupsFold store _ [] (by simp)
  constructor
  · rintro ⟨g, hg, hpg, hqg⟩
    obtain ⟨cp', hcp', hkp⟩ := hmembers g hg p hpg
    obtain ⟨cq', hcq', hkq⟩ := hmembers g hg q hqg
    rw [hcp] at hcp'
    injection hcp' with e1
    subst e1
    rw [hcq] at hcq'
    injection hcq' with e2
    subst e2
    exact configKey_inj (by rw [← hkp, ← hkq])
  · intro hcpq
    have hpc : p ∈ (ports.sort (· ≤ ·)).filter (fun x => (lookupPort store x).isSome) :=
      List.mem_filter.mpr ⟨(Finset.mem_sort (· ≤ ·)).mpr hp, by rw [hcp]; rfl⟩
    have hqc : q ∈ (ports.sort (· ≤ ·)).filter (fun x => (lookupPort store x).isSome) :=
      List.mem_filter.mpr ⟨(Finset.mem_sort (· ≤ ·)).mpr hq, by rw [hcq]; rfl⟩
    have hip : inGroup (port_groups store ports) (configKey cp) p :=
      (inGroup_groupsFold store _ [] _ _).mpr (Or.inr ⟨hpc, cp, hcp, rfl⟩)
    have hiq : inGroup (port_groups store ports) (configKey cp) q :=
      (inGroup_groupsFold store _ [] _ _).mpr (Or.inr ⟨hqc, cq, hcq, by rw [hcpq]⟩)
    obtain ⟨l1, hm1, hp1⟩ := hip
    obtain ⟨l2, hm2, hq2⟩ := hiq
    cases group_unique hkeys hm1 hm2
    exact ⟨(configKey cp, l1), hm1, hp1, hq2⟩

/-- C4, witness: two ports with the identical record `cfgA` share a group. -/
theorem command_groups_same_iff_witness :
    ∃ g ∈ port_groups [(1, cfgA), (2, cfgA)] {1, 2}, 1 ∈ g.2 ∧ 2 ∈ g.2 :=
  (command_groups_same_iff [(1, cfgA), (2, cfgA)] {1, 2} 1 2 cfgA cfgA
    (by decide) (by decide) rfl rfl).mpr rfl

/-! ## The remaining store-mutating operations, for the reachability
invariant of C7 -/

/-- The allowed-VLANs normalisation loop of `apply_port_config_to_selected`
(source lines 1475–1494): every token must parse, ranges are re-rendered
`str(start)-str(end)`; any `ValueError` rejects the whole apply. -/
def validatedTrunkRanges : List String → Option (List String)
  | [] => some []
  | vrange :: rest =>
    if vrange.data.contains '-' then
      match pySplit vrange '-' with
      | [s1, s2] =>
        match pyInt? s1, pyInt? s2 with
        | some a, some b =>
          if 1 ≤ a ∧ a ≤ 4094 ∧ 1 ≤ b ∧ b ≤ 4094 ∧ a ≤ b then
            (validatedTrunkRanges rest).map ((intStr a ++ "-" ++ intStr b) :: ·)
          else none
        | _, _ => none
      | _ => none
    else
      match pyInt? vrange with
      | some v =>
        if 1 ≤ v ∧ v ≤ 4094 then (validatedTrunkRanges rest).map (intStr v :: ·)
        else none
      | none => none

/-- The `config_to_apply` construction of `apply_port_config_to_selected`
(source lines 1420–1513), all validation before any write; `none` models
the `ValueError` caught at line 1520. -/
def buildConfigToApply (mode desc : String) (pf qos : Bool)
    (data voice native allowed : String) : Option PortConfig :=
  if mode = "access" then
    if data = "" then none
    else
      match pyInt? data with
      | some dv =>
        if 1 ≤ dv ∧ dv ≤ 4094 then
          if voice = "" then
            some { mode := mode, description := desc, portfast := pf, qos_trust := qos,
                   data_vlan := some (intStr dv) }
          else
            match pyInt? voice with
            | some vv =>
              if 1 ≤ vv ∧ vv ≤ 4094 then
                if vv = dv then none
                else
                  some { mode := mode, description := desc, portfast := pf,
                         qos_trust := qos, data_vlan := some (intStr dv),
                         voice_vlan := some (intStr vv) }
              else none
            | none => none
        else none
      | none => none
  else if mode = "trunk" then
    let nativeStr : Option String :=
      if native ≠ "" then
        match pyInt? native with
        | some nv => if 1 ≤ nv ∧ nv ≤ 4094 then some (intStr nv) else none
        | none => none
      else some "1"
    match nativeStr with
    | none => none
    | some ns =>
      let allowed1 := if allowed = "" then "ALL" else allowed
      if pyUpper allowed1 ≠ "ALL" then
        match validatedTrunkRanges (pySplit allowed1 ',') with
        | some ranges =>
          some { mode := mode, description := desc, portfast := pf, qos_trust := qos,
                 native_vlan := some ns,
                 allowed_vlans := some (String.intercalate "," ranges) }
        | none => none
      else
        some { mode := mode, description := desc, portfast := pf, qos_trust := qos,
               native_vlan := some ns, allowed_vlans := some allowed1 }
  else
    some { mode := mode, description := desc, portfast := pf, qos_trust := qos }

/-- The write loop `self.port_configs[port_num] = port_config.copy()`. -/
def writeAll : PortStore → List Nat → PortConfig → PortStore
  | store, [], _ => store
  | store, p :: rest, cfg => writeAll (setPort store p cfg) rest cfg

/-- `apply_port_config_to_selected` (source lines 1399–1548): push a
snapshot, validate everything into `config_to_apply`, then write it to
every selected port (atomic: a validation failure writes nothing). -/
def apply_port_config_to_selected (st : AppState) (ports : List Nat) (inp : PanelInput) :
    AppState × Outcome :=
  if ports = [] then (st, .noSelection)
  else
    let st1 := pushHistory st
    let mode := pyLower inp.mode
    let desc := pyStrip inp.description
    if mode = "" then (st1, .invalid)
    else
      match buildConfigToApply mode desc inp.portfast inp.qos_trust
          (pyStrip inp.data_vlan) (pyStrip inp.voice_vlan)
          (pyStrip inp.native_vlan) (pyStrip inp.allowed_vlans) with
      | none => (st1, .invalid)
      | some cfg =>
        ({ st1 with port_configs := writeAll st1.port_configs ports cfg }, .applied)

/-- A `port_templates` entry.  The shipped templates carry the fields
their mode needs; `native_vlan`/`trunk_vlans` default as in
`template.get("native_vlan", "1")` / `template.get("trunk_vlans", "ALL")`. -/
structure Template where
  mode : String
  description : String
  portfast : Bool
  qos_trust : Bool
  access_vlan : String := ""
  voice_vlan : Option String := none
  native_vlan : String := "1"
  trunk_vlans : String := "ALL"
deriving DecidableEq

/-- `_validate_single_vlan` (source lines 2615–2645). -/
def validate_single_vlan (value : String) : Bool :=
  if value = "" then true
  else if pyUpper value = "ALL" then true
  else if pyIsDigit value then
    decide (1 ≤ digitsToNat value.data ∧ digitsToNat value.data ≤ 4094)
  else true

/-- The strict inline trunk-VLANs validation of `_apply_template` (source
lines 2197–2217); any `ValueError` there surfaces as a template error. -/
def templateTrunkPartsOk : List String → Bool
  | [] => true
  | part :: rest =>
    let p := pyStrip part
    if p = "" then templateTrunkPartsOk rest
    else if p.data.contains '-' then
      match (pySplit p '-').map pyStrip with
      | [st, en] =>
        match pyInt? st, pyInt? en with
        | some a, some b =>
          if 1 ≤ a ∧ a ≤ 4094 ∧ 1 ≤ b ∧ b ≤ 4094 ∧ a ≤ b then templateTrunkPartsOk rest
          else false
        | _, _ => false
      | _ => false
    else
      match pyInt? p with
      | some v => if 1 ≤ v ∧ v ≤ 4094 then templateTrunkPartsOk rest else false
      | none => false

/-- `_check_vlan_exists` (source lines 2419–2425); `configured_vlans` only
ever holds integers, so the `str(vlan_id_int) in ...` disjunct is never
the deciding one. -/
def check_vlan_exists (reg : Finset Int) (s : String) : Bool :=
  match pyInt? s with
  | some v => v ∈ reg
  | none => false

/-- One `_create_vlan`-if-missing prompt of `_apply_template` (source
lines 2248–2262): `yes` is the user's answer; `int(vlan_id)` in
`_create_vlan` (line 2428) crashes on an unparseable id. -/
def createVlanPrompt (reg : Finset Int) (s : String) (yes : Bool) : Option (Finset Int) :=
  if !check_vlan_exists reg s && yes then
    match pyInt? s with
    | some v => some (insert v reg)
    | none => none
  else some reg

/-- The record `_apply_template` writes to each port (source lines
2265–2281): access templates carry `data_vlan`/`voice_vlan`, every other
mode that reaches the write loop carries `native_vlan`/`allowed_vlans`. -/
def templateConfig (tmpl : Template) : PortConfig :=
  if tmpl.mode = "access" then
    { mode := tmpl.mode, description := tmpl.description, portfast := tmpl.portfast,
      qos_trust := tmpl.qos_trust, data_vlan := some tmpl.access_vlan,
      voice_vlan := tmpl.voice_vlan }
  else
    { mode := tmpl.mode, description := tmpl.description, portfast := tmpl.portfast,
      qos_trust := tmpl.qos_trust, native_vlan := some tmpl.native_vlan,
      allowed_vlans := some tmpl.trunk_vlans }

/-- `_apply_template` (source lines 2158–2300): push a snapshot, validate
the template, run the VLAN-exists prompts (access mode), then write the
resolved record to every selected port.  A template whose mode is neither
`"access"` nor `"trunk"` crashes with a `NameError` at the write loop
(`native_vlan` is only bound inside the trunk branch), before any port is
written. -/
def apply_template (st : AppState) (ports : List Nat) (tmpl : Template)
    (yesData yesVoice : Bool) : AppState × Outcome :=
  if ports = [] then (st, .noSelection)
  else
    let st1 := pushHistory st
    let ok : Bool :=
      if tmpl.mode = "access" then
        validate_single_vlan tmpl.access_vlan &&
          (match tmpl.voice_vlan with
           | some v => validate_single_vlan v
           | none => true)
      else if tmpl.mode = "trunk" then
        validate_single_vlan tmpl.native_vlan &&
          (if pyUpper tmpl.trunk_vlans ≠ "ALL" then
            templateTrunkPartsOk (pySplit tmpl.trunk_vlans ',')
          else true)
      else true
    if !ok then (st1, .invalid)
    else if tmpl.mode = "access" then
      match createVlanPrompt st1.configured_vlans tmpl.access_vlan yesData with
      | none => (st1, .crash)
      | some reg1 =>
        let reg2opt :=
          match tmpl.voice_vlan with
          | some v => createVlanPrompt reg1 v yesVoice
          | none => some reg1
        match reg2opt with
        | none => ({ st1 with configured_vlans := reg1 }, .crash)
        | some reg2 =>
          ({ st1 with
              configured_vlans := reg2,
              port_configs := writeAll st1.port_configs ports (templateConfig tmpl) },
            .applied)
    else if tmpl.mode = "trunk" then
      ({ st1 with port_configs := writeAll st1.port_configs ports (templateConfig tmpl) },
        .applied)
    else (st1, .crash)

/-- `clear_all` (source lines 2059–2071): clears the store and the VLAN
registry; the history stack is left as it is. -/
def clear_all (st : AppState) : AppState :=
  { st with port_configs := [], configured_vlans := ∅ }

/-- The pruning step of `_update_switch_layout` (source lines 419–424):
drop records of ports beyond the new total. -/
def prune_ports (st : AppState) (total : Nat) : AppState :=
  { st with port_configs := st.port_configs.filter (fun kv => !(decide (total < kv.1))) }

/-- The states reachable from start-up through the store-mutating public
operations. -/
inductive Reachable : AppState → Prop where
  | init : Reachable initialState
  | update_vlan (s : AppState) (ports : List Nat) (inp : PanelInput) :
      Reachable s → Reachable (update_vlan_from_port_config s ports inp).1
  | apply_selected (s : AppState) (ports : List Nat) (inp : PanelInput) :
      Reachable s → Reachable (apply_port_config_to_selected s ports inp).1
  | direct_native (s : AppState) (ports : List Nat) (raw : String) :
      Reachable s → Reachable (direct_update_native_vlan s ports raw).1
  | direct_allowed (s : AppState) (ports : List Nat) (raw : String) :
      Reachable s → Reachable (direct_update_allowed_vlans s ports raw).1
  | template (s : AppState) (ports : List Nat) (tmpl : Template) (yd yv : Bool) :
      Reachable s → Reachable (apply_template s ports tmpl yd yv).1
  | undo (s s' : AppState) : Reachable s → undo_config s = some s' → Reachable s'
  | redo (s s' : AppState) : Reachable s → redo_config s = some s' → Reachable s'
  | clear (s : AppState) : Reachable s → Reachable (clear_all s)
  | prune (s : AppState) (total : Nat) : Reachable s → Reachable (prune_ports s total)

/-- The per-record invariant: a trunk-mode record carries no access-only
field, and a record with an access-only field carries no trunk-only
field. -/
def recordOk (c : PortConfig) : Prop :=
  (pyLower c.mode = "trunk" → c.data_vlan = none ∧ c.voice_vlan = none) ∧
  ((c.data_vlan ≠ none ∨ c.voice_vlan ≠ none) →
    c.native_vlan = none ∧ c.allowed_vlans = none)

def storeOk (s : PortStore) : Prop := ∀ pc ∈ s, recordOk pc.2

def stateOk (st : AppState) : Prop :=
  storeOk st.port_configs ∧ ∀ h ∈ st.config_history, storeOk h

set_option maxHeartbeats 2000000 in
theorem charLower_idem (c : Char) : charLower (charLower c) = charLower c := by
  unfold charLower
  split
  all_goals
    first
    | rfl
    | (rename_i heq
       split at heq <;>
         first
         | exact absurd heq (by decide)
         | exact absurd heq (by assumption))

theorem pyLower_idem (s : String) : pyLower (pyLower s) = pyLower s := by
  show String.mk ((s.data.map charLower).map charLower) = String.mk (s.data.map charLower)
  rw [List.map_map]
  exact congrArg String.mk (List.map_congr_left (fun a _ => charLower_idem a))

theorem lookupPort_mem {l : PortStore} {p : Nat} {c : PortConfig}
    (h : lookupPort l p = some c) : (p, c) ∈ l := by
  induction l with
  | nil => cases h
  | cons kv rest ih =>
    obtain ⟨k, c0⟩ := kv
    rw [show lookupPort ((k, c0) :: rest) p =
      if k = p then some c0 else lookupPort rest p from rfl] at h
    split at h
    · rename_i hk
      injection h with h1
      subst hk h1
      exact List.mem_cons_self _ _
    · exact List.mem_cons_of_mem _ (ih h)

theorem mem_setPort {l : PortStore} {q : Nat} {c : PortConfig} {pc : Nat × PortConfig}
    (h : pc ∈ setPort l q c) : pc ∈ l ∨ pc = (q, c) := by
  induction l with
  | nil =>
    rw [show setPort [] q c = [(q, c)] from rfl, List.mem_singleton] at h
    exact Or.inr h
  | cons kv rest ih =>
    obtain ⟨k, c0⟩ := kv
    rw [show setPort ((k, c0) :: rest) q c =
      if k = q then (k, c) :: rest else (k, c0) :: setPort rest q c from rfl] at h
    split at h
    · rename_i hk
      rw [List.mem_cons] at h
      rcases h with h | h
      · exact Or.inr (by rw [h, hk])
      · exact Or.inl (List.mem_cons_of_mem _ h)
    · rw [List.mem_cons] at h
      rcases h with h | h
      · exact Or.inl (List.mem_cons.mpr (Or.inl h))
      · rcases ih h with h | h
        · exact Or.inl (List.mem_cons_of_mem _ h)
        · exact Or.inr h

theorem storeOk_setPort {l : PortStore} {q : Nat} {c : PortConfig}
    (h : storeOk l) (hc : recordOk c) : storeOk (setPort l q c) := by
  intro pc hpc
  rcases mem_setPort hpc with hm | hm
  · exact h pc hm
  · rw [hm]
    exact hc

theorem storeOk_writeAll {c : PortConfig} (hc : recordOk c) :
    ∀ (ports : List Nat) (l : PortStore), storeOk l → storeOk (writeAll l ports c) := by
  intro ports
  induction ports with
  | nil => intro l h; exact h
  | cons p rest ih => intro l h; exact ih _ (storeOk_setPort h hc)

theorem recordOk_noAccessFields {c : PortConfig} (h1 : c.data_vlan = none)
    (h2 : c.voice_vlan = none) : recordOk c :=
  ⟨fun _ => ⟨h1, h2⟩,
   fun hh => by rw [h1, h2] at hh; rcases hh with hh | hh <;> exact absurd rfl hh⟩

theorem recordOk_noTrunkFields {c : PortConfig} (hm : pyLower c.mode ≠ "trunk")
    (h1 : c.native_vlan = none) (h2 : c.allowed_vlans = none) : recordOk c :=
  ⟨fun hl => absurd hl hm, fun _ => ⟨h1, h2⟩⟩

theorem recordOk_applyTrunkFields (native allowed : String) (c : PortConfig) :
    recordOk (applyTrunkFields native allowed c) := by
  unfold applyTrunkFields
  split <;> exact recordOk_noAccessFields rfl rfl

theorem recordOk_accessResult (data voice : String) (cfg : PortConfig)
    (hm : pyLower cfg.mode ≠ "trunk") :
    ∀ r, applyAccessFields data voice cfg = r →
      (∀ c', r = .ok c' → recordOk c') ∧ (∀ c', r = .error c' → recordOk c') := by
  intro r h
  unfold applyAccessFields at h
  repeat' split at h
  all_goals subst h
  all_goals
    refine ⟨fun c' hc' => ?_, fun c' hc' => ?_⟩ <;>
      first
      | (injection hc' with hc'
         subst hc'
         exact recordOk_noTrunkFields hm rfl rfl)
      | injection hc'

theorem recordOk_buildConfig :
    ∀ (mode desc : String) (pf qos : Bool) (data voice native allowed : String)
      (cfg : PortConfig),
      buildConfigToApply mode desc pf qos data voice native allowed = some cfg →
      pyLower mode = mode → recordOk cfg := by
  intro mode desc pf qos data voice native allowed cfg h hm
  simp only [buildConfigToApply] at h
  repeat' split at h
  all_goals
    first
    | (injection h with h1
       subst h1
       exact recordOk_noAccessFields rfl rfl)
    | (injection h with h1
       subst h1
       refine ⟨fun hl => ?_, fun _ => ⟨rfl, rfl⟩⟩
       have hl' : mode = "trunk" := by
         rw [← hm]
         exact hl
       simp_all)
    | injection h

theorem recordOk_templateConfig (tmpl : Template) : recordOk (templateConfig tmpl) := by
  unfold templateConfig
  split
  · rename_i hacc
    refine ⟨fun hl => ?_, fun _ => ⟨rfl, rfl⟩⟩
    exact absurd (hacc ▸ (show pyLower tmpl.mode = "trunk" from hl)) (by decide)
  · exact recordOk_noAccessFields rfl rfl

theorem applyPortsLoop_storeOk :
    ∀ (mode desc : String) (pf qos : Bool) (data voice native allowed : String)
      (ports : List Nat) (store s2 : PortStore) (b : Bool),
      applyPortsLoop mode desc pf qos data voice native allowed ports store = (s2, b) →
      pyLower mode = mode → storeOk store → storeOk s2 := by
  intro mode desc pf qos data voice native allowed ports
  induction ports with
  | nil =>
    intro store s2 b h _ hst
    injection h with h1 _
    subst h1
    exact hst
  | cons p rest ih =>
    intro store s2 b h hm hst
    simp only [applyPortsLoop] at h
    cases hlp : lookupPort store p with
    | none =>
      simp only [hlp] at h
      have hcfg0 : recordOk { mode := mode, description := desc, portfast := pf, qos_trust := qos : PortConfig } :=
        recordOk_noAccessFields rfl rfl
      by_cases hacc : mode = "access"
      · rw [if_pos hacc] at h
        have hmne : pyLower ({ mode := mode, description := desc, portfast := pf, qos_trust := qos : PortConfig }).mode ≠ "trunk" :=
          fun hl => absurd (hacc ▸ (show pyLower mode = "trunk" from hl)) (by decide)
        cases hres : applyAccessFields data voice { mode := mode, description := desc, portfast := pf, qos_trust := qos : PortConfig } with
        | error cerr =>
          simp only [hres] at h
          injection h with h1 _
          subst h1
          exact storeOk_setPort hst
            ((recordOk_accessResult data voice _ hmne _ rfl).2 cerr hres)
        | ok cok =>
          simp only [hres] at h
          exact ih _ s2 b h hm (storeOk_setPort hst
            ((recordOk_accessResult data voice _ hmne _ rfl).1 cok hres))
      · by_cases htr : mode = "trunk"
        · rw [if_neg hacc, if_pos htr] at h
          exact ih _ s2 b h hm
            (storeOk_setPort hst (recordOk_applyTrunkFields native allowed _))
        · rw [if_neg hacc, if_neg htr] at h
          refine ih _ s2 b h hm (storeOk_setPort hst ?_)
          exact ⟨fun hl => absurd (hm ▸ (show pyLower mode = "trunk" from hl)) htr,
            hcfg0.2⟩
    | some c0 =>
      simp only [hlp] at h
      have hcfg0 : recordOk c0 := hst (p, c0) (lookupPort_mem hlp)
      by_cases hacc : mode = "access"
      · rw [if_pos hacc] at h
        have hmne : pyLower ({ c0 with mode := mode, description := desc, portfast := pf, qos_trust := qos } : PortConfig).mode ≠ "trunk" :=
          fun hl => absurd (hacc ▸ (show pyLower mode = "trunk" from hl)) (by decide)
        cases hres : applyAccessFields data voice ({ c0 with mode := mode, description := desc, portfast := pf, qos_trust := qos } : PortConfig) with
        | error cerr =>
          simp only [hres] at h
          injection h with h1 _
          subst h1
          exact storeOk_setPort hst
            ((recordOk_accessResult data voice _ hmne _ rfl).2 cerr hres)
        | ok cok =>
          simp only [hres] at h
          exact ih _ s2 b h hm (storeOk_setPort hst
            ((recordOk_accessResult data voice _ hmne _ rfl).1 cok hres))
      · by_cases htr : mode = "trunk"
        · rw [if_neg hacc, if_pos htr] at h
          exact ih _ s2 b h hm
            (storeOk_setPort hst (recordOk_applyTrunkFields native allowed _))
        · rw [if_neg hacc, if_neg htr] at h
          refine ih _ s2 b h hm (storeOk_setPort hst ?_)
          exact ⟨fun hl => absurd (hm ▸ (show pyLower mode = "trunk" from hl)) htr,
            hcfg0.2⟩

theorem pyIndex_mem {α : Type} {l : List α} {i : Int} {x : α}
    (h : pyIndex l i = some x) : x ∈ l := by
  unfold pyIndex at h
  split at h
  · exact List.get?_mem h
  · split at h
    · exact List.get?_mem h
    · cases h

theorem stateOk_pushHistory {st : AppState} (h : stateOk st) : stateOk (pushHistory st) := by
  refine ⟨h.1, fun hh hmem => ?_⟩
  rw [show (pushHistory st).config_history =
    st.config_history.take (st.current_step + 1).toNat ++ [st.port_configs] from rfl,
    List.mem_append] at hmem
  rcases hmem with hmem | hmem
  · exact h.2 hh (List.take_subset _ _ hmem)
  · rw [List.mem_singleton] at hmem
    subst hmem
    exact h.1

theorem stateOk_initial : stateOk initialState :=
  ⟨fun pc hpc => absurd hpc (List.not_mem_nil pc),
   fun hh hmem => absurd hmem (List.not_mem_nil hh)⟩

theorem stateOk_update_vlan (st : AppState) (ports : List Nat) (inp : PanelInput)
    (h : stateOk st) : stateOk (update_vlan_from_port_config st ports inp).1 := by
  rcases hr : update_vlan_from_port_config st ports inp with ⟨s', oc⟩
  by_cases hp : ports = []
  · rw [update_vlan_from_port_config, if_pos hp] at hr
    injection hr with h1 _
    subst h1
    exact h
  · simp only [update_vlan_from_port_config, if_neg hp] at hr
    repeat' split at hr
    all_goals (injection hr with h1 h2; subst h1)
    all_goals
      first
      | exact stateOk_pushHistory h
      | (rename_i s2 heq
         exact ⟨applyPortsLoop_storeOk _ _ _ _ _ _ _ _ _ _ _ _ heq
           (pyLower_idem inp.mode) h.1, (stateOk_pushHistory h).2⟩)

theorem stateOk_apply_selected (st : AppState) (ports : List Nat) (inp : PanelInput)
    (h : stateOk st) : stateOk (apply_port_config_to_selected st ports inp).1 := by
  rcases hr : apply_port_config_to_selected st ports inp with ⟨s', oc⟩
  by_cases hp : ports = []
  · rw [apply_port_config_to_selected, if_pos hp] at hr
    injection hr with h1 _
    subst h1
    exact h
  · simp only [apply_port_config_to_selected, if_neg hp] at hr
    repeat' split at hr
    all_goals (injection hr with h1 h2; subst h1)
    all_goals
      first
      | exact stateOk_pushHistory h
      | (rename_i cfg heq
         exact ⟨storeOk_writeAll
           (recordOk_buildConfig _ _ _ _ _ _ _ _ _ heq (pyLower_idem inp.mode))
           ports _ h.1, (stateOk_pushHistory h).2⟩)

theorem direct_update_loop_storeOk (f : PortConfig → PortConfig)
    (hf : ∀ c, recordOk c → pyLower c.mode = "trunk" → recordOk (f c)) :
    ∀ (ports : List Nat) (store s2 : PortStore) (upd : List Nat),
      direct_update_loop f ports store = (s2, upd) → storeOk store → storeOk s2 := by
  intro ports
  induction ports with
  | nil =>
    intro store s2 upd h hst
    injection h with h1 _
    subst h1
    exact hst
  | cons q rest ih =>
    intro store s2 upd h hst
    simp only [direct_update_loop] at h
    cases hq : lookupPort store q with
    | none =>
      simp only [hq] at h
      exact ih store s2 upd h hst
    | some c =>
      simp only [hq] at h
      by_cases hc : (pyLower c.mode == "trunk") = true
      · rw [if_pos hc] at h
        injection h with h1 _
        subst h1
        have hrec : recordOk (f c) :=
          hf c (hst (q, c) (lookupPort_mem hq)) (eq_of_beq hc)
        rcases hl2 : direct_update_loop f rest (setPort store q (f c)) with ⟨a, b⟩
        exact ih _ a b hl2 (storeOk_setPort hst hrec)
      · rw [if_neg hc] at h
        exact ih store s2 upd h hst

theorem storeOk_direct_loop_fst (f : PortConfig → PortConfig)
    (hf : ∀ c, recordOk c → pyLower c.mode = "trunk" → recordOk (f c))
    (ports : List Nat) (store : PortStore) (h : storeOk store) :
    storeOk (direct_update_loop f ports store).1 := by
  rcases hl : direct_update_loop f ports store with ⟨a, b⟩
  exact direct_update_loop_storeOk f hf ports store a b hl h

theorem stateOk_direct_native (st : AppState) (ports : List Nat) (raw : String)
    (h : stateOk st) : stateOk (direct_update_native_vlan st ports raw).1 := by
  rcases hr : direct_update_native_vlan st ports raw with ⟨s', rest⟩
  simp only [direct_update_native_vlan] at hr
  repeat' split at hr
  all_goals (injection hr with h1 h2; subst h1)
  all_goals
    first
    | exact h
    | (refine ⟨storeOk_direct_loop_fst _ ?_ ports _ h.1, (stateOk_pushHistory h).2⟩
       intro c hrec htr
       exact ⟨fun _ => hrec.1 htr,
         fun hh => False.elim (hh.elim (fun h1 => h1 (hrec.1 htr).1)
           (fun h2 => h2 (hrec.1 htr).2))⟩)

theorem stateOk_direct_allowed (st : AppState) (ports : List Nat) (raw : String)
    (h : stateOk st) : stateOk (direct_update_allowed_vlans st ports raw).1 := by
  rcases hr : direct_update_allowed_vlans st ports raw with ⟨s', rest⟩
  simp only [direct_update_allowed_vlans] at hr
  repeat' split at hr
  all_goals (injection hr with h1 h2; subst h1)
  all_goals
    first
    | exact h
    | (refine ⟨storeOk_direct_loop_fst _ ?_ ports _ h.1, (stateOk_pushHistory h).2⟩
       intro c hrec htr
       exact ⟨fun _ => hrec.1 htr,
         fun hh => False.elim (hh.elim (fun h1 => h1 (hrec.1 htr).1)
           (fun h2 => h2 (hrec.1 htr).2))⟩)

theorem stateOk_template (st : AppState) (ports : List Nat) (tmpl : Template)
    (yd yv : Bool) (h : stateOk st) : stateOk (apply_template st ports tmpl yd yv).1 := by
  rcases hr : apply_template st ports tmpl yd yv with ⟨s', oc⟩
  by_cases hp : ports = []
  · rw [apply_template, if_pos hp] at hr
    injection hr with h1 _
    subst h1
    exact h
  · simp only [apply_template, if_neg hp] at hr
    repeat' split at hr
    all_goals (injection hr with h1 h2; subst h1)
    all_goals
      first
      | exact stateOk_pushHistory h
      | exact ⟨storeOk_writeAll (recordOk_templateConfig tmpl) ports _ h.1,
          (stateOk_pushHistory h).2⟩

theorem stateOk_undo {st s' : AppState} (h : stateOk st)
    (hu : undo_config st = some s') : stateOk s' := by
  unfold undo_config at hu
  split at hu
  · split at hu
    · rename_i snap hidx
      injection hu with h1
      subst h1
      exact ⟨h.2 snap (pyIndex_mem hidx), h.2⟩
    · cases hu
  · injection hu with h1
    subst h1
    exact h

theorem stateOk_redo {st s' : AppState} (h : stateOk st)
    (hu : redo_config st = some s') : stateOk s' := by
  unfold redo_config at hu
  split at hu
  · split at hu
    · rename_i snap hidx
      injection hu with h1
      subst h1
      exact ⟨h.2 snap (pyIndex_mem hidx), h.2⟩
    · cases hu
  · injection hu with h1
    subst h1
    exact h

theorem stateOk_clear {st : AppState} (h : stateOk st) : stateOk (clear_all st) :=
  ⟨fun pc hpc => absurd hpc (List.not_mem_nil pc), h.2⟩

theorem stateOk_prune {st : AppState} (total : Nat) (h : stateOk st) :
    stateOk (prune_ports st total) :=
  ⟨fun pc hpc => h.1 pc (List.mem_of_mem_filter hpc), h.2⟩

theorem reachable_stateOk {st : AppState} (h : Reachable st) : stateOk st := by
  induction h with
  | init => exact stateOk_initial
  | update_vlan s ports inp _ ih => exact stateOk_update_vlan s ports inp ih
  | apply_selected s ports inp _ ih => exact stateOk_apply_selected s ports inp ih
  | direct_native s ports raw _ ih => exact stateOk_direct_native s ports raw ih
  | direct_allowed s ports raw _ ih => exact stateOk_direct_allowed s ports raw ih
  | template s ports tmpl yd yv _ ih => exact stateOk_template s ports tmpl yd yv ih
  | undo s s' _ hu ih => exact stateOk_undo ih hu
  | redo s s' _ hu ih => exact stateOk_redo ih hu
  | clear s _ ih => exact stateOk_clear ih
  | prune s total _ ih => exact stateOk_prune total ih

/-- C7.  In every state reachable through the public store-mutating
operations, no port's record simultaneously carries an access-only field
(`data_vlan`/`voice_vlan`) and a trunk-only field
(`native_vlan`/`allowed_vlans`); and the per-port apply enforces it by
erasure — trunk application deletes the access-only fields, access
application deletes the trunk-only fields, whatever the previous record. -/
theorem mode_fields_mutually_exclusive (st : AppState) (h : Reachable st) :
    (∀ p c, lookupPort st.port_configs p = some c →
      ¬((c.data_vlan ≠ none ∨ c.voice_vlan ≠ none) ∧
        (c.native_vlan ≠ none ∨ c.allowed_vlans ≠ none))) ∧
    (∀ native allowed c, (applyTrunkFields native allowed c).data_vlan = none ∧
      (applyTrunkFields native allowed c).voice_vlan = none) ∧
    (∀ data voice c c',
      applyAccessFields data voice c = .ok c' ∨ applyAccessFields data voice c = .error c' →
      c'.native_vlan = none ∧ c'.allowed_vlans = none) := by
  refine ⟨?_, ?_, ?_⟩
  · intro p c hc ⟨ha, hb⟩
    have hrec := (reachable_stateOk h).1 (p, c) (lookupPort_mem hc)
    obtain ⟨hn, hal⟩ := hrec.2 ha
    rcases hb with hb | hb
    · exact hb hn
    · exact hb hal
  · intro native allowed c
    unfold applyTrunkFields
    split <;> exact ⟨rfl, rfl⟩
  · intro data voice c c' hcc
    rcases hcc with hcc | hcc <;>
      · unfold applyAccessFields at hcc
        repeat' split at hcc
        all_goals
          first
          | (injection hcc with h1
             subst h1
             exact ⟨rfl, rfl⟩)
          | injection hcc

/-- C7, witness: in the reachable state A (access applied to port 1), port
1's record mixes no access-only and trunk-only fields. -/
theorem mode_fields_mutually_exclusive_witness :
    ¬((cfgA.data_vlan ≠ none ∨ cfgA.voice_vlan ≠ none) ∧
      (cfgA.native_vlan ≠ none ∨ cfgA.allowed_vlans ≠ none)) :=
  (mode_fields_mutually_exclusive stateA
    (Reachable.update_vlan initialState [1] (panelAccess "10") Reachable.init)).1
    1 cfgA rfl

end Cisco
